import Mathlib

/-!
# Elasticsearch log adapter (`es/es.go`)

A shallow embedding of the adapter `esLogger` of package `es`: its constructor
`NewES`, `Init`, `WriteMsg`, `Format`, `SetFormatter`, `Flush` and `Destroy`.

Go strings are byte sequences; a byte is a natural number below 256.  Calls that
leave the package (JSON decoding, URL parsing, client construction, the
formatter registry, the index request) are fields of an environment `Env`, and
every such call is recorded, in program order, in a list of `Event`s.
-/

namespace es

/-- A Go `string`: its bytes, each below 256. -/
abbrev GoString := List Nat

/-- UTF-8 bytes of one Unicode scalar value. -/
def utf8EncodeRune (r : Nat) : List Nat :=
  if r < 0x80 then [r]
  else if r < 0x800 then [0xC0 + r / 64, 0x80 + r % 64]
  else if r < 0x10000 then [0xE0 + r / 4096, 0x80 + r / 64 % 64, 0x80 + r % 64]
  else [0xF0 + r / 262144, 0x80 + r / 4096 % 64, 0x80 + r / 64 % 64, 0x80 + r % 64]

/-- UTF-8 bytes of a list of characters. -/
def utf8Chars : List Char → GoString
  | [] => []
  | c :: cs => utf8EncodeRune c.toNat ++ utf8Chars cs

/-- The Go string denoted by a source literal. -/
def utf8 (s : String) : GoString := utf8Chars s.data

/-- A Go `error` value: `errorString` is what `errors.New` builds, `lib` an
error produced by an imported package. -/
inductive GoError where
  | errorString (msg : GoString)
  | lib (pkg : String) (msg : GoString)
deriving DecidableEq, Repr

/-- How a Go call ends: it returns a value, or it panics. -/
inductive Outcome (α : Type) where
  | returned (a : α)
  | panicked
deriving DecidableEq, Repr

/-- A `time.Time` as the civil fields `Format` reads: the date and clock in
the value's own location, down to the nanosecond, and that location's offset
east of UTC in seconds. -/
structure Time where
  year : Int
  month : Nat
  day : Nat
  hour : Nat
  minute : Nat
  second : Nat
  nanosecond : Nat
  offset : Int
deriving DecidableEq, Repr

/-- Modelled from the spec: the host framework's log record (`gologs.LogMsg`,
not part of the adapter's file), "an externally-owned value carrying a
timestamp, severity level, and message content". -/
structure LogMsg where
  Level : Int
  Msg : GoString
  When : Time
deriving DecidableEq, Repr

/-- A value implementing `gologs.LogFormatter` (one method, `Format`). -/
structure Formatter where
  Format : LogMsg → GoString

/-- A `gologs.LogFormatter` interface value; `none` is the nil interface. -/
abbrev LogFormatter := Option Formatter

/-- A value implementing `IndexNaming` (one method, `IndexName`). -/
structure NamingPolicy where
  IndexName : LogMsg → GoString

/-- An `IndexNaming` interface value; `none` is the nil interface. -/
abbrev IndexNaming := Option NamingPolicy

/-- A constructed `elasticsearch.Client`, known only by its identity. -/
structure Client where
  handle : Nat
deriving DecidableEq, Repr

/-- The fields of a parsed `url.URL` that the adapter or its callers read. -/
structure URL where
  Scheme : GoString
  Opaque : GoString
  Host : GoString
  Path : GoString
  RawQuery : GoString
  Fragment : GoString
deriving DecidableEq, Repr

/-- The fields `WriteMsg` sets on `esapi.IndexRequest`; `Body` is the content
of the reader `strings.NewReader(msg)`. -/
structure IndexRequest where
  Index : GoString
  DocumentType : GoString
  Body : GoString
deriving DecidableEq, Repr

/-- The struct `esLogger`.  `Client` is the embedded `*elasticsearch.Client`
(`none` is nil). -/
structure esLogger where
  Client : Option Client
  DSN : GoString
  Level : Int
  formatter : LogFormatter
  Formatter : GoString
  indexNaming : IndexNaming

/-- The fields of `esLogger` that reflection can set, hence all that
`json.Unmarshal` can change: the exported ones, the embedded pointer among
them.  `formatter` and `indexNaming` are unexported. -/
structure Exported where
  Client : Option Client
  DSN : GoString
  Level : Int
  Formatter : GoString
deriving DecidableEq, Repr

/-- The exported fields of an adapter. -/
def esLogger.exported (el : esLogger) : Exported :=
  { Client := el.Client, DSN := el.DSN, Level := el.Level, Formatter := el.Formatter }

/-- The adapter with its exported fields replaced. -/
def esLogger.withExported (el : esLogger) (x : Exported) : esLogger :=
  { el with Client := x.Client, DSN := x.DSN, Level := x.Level, Formatter := x.Formatter }

/-- The struct `LogDocument`. -/
structure LogDocument where
  Timestamp : GoString
  Msg : GoString
deriving DecidableEq, Repr

/-! ## `unicode/utf8` and `encoding/json` -/

/-- The rune `utf8.RuneError` (U+FFFD). -/
def RuneError : Nat := 0xFFFD

/-- A UTF-8 continuation byte. -/
def isCont (b : Nat) : Bool := 0x80 ≤ b && b ≤ 0xBF

/-- Go's `utf8.DecodeRuneInString`: the first rune of the input and the number
of bytes it takes; `(RuneError, 1)` at a byte that starts no well-formed
encoding, `(RuneError, 0)` on empty input. -/
def decodeRune : GoString → Nat × Nat
  | [] => (RuneError, 0)
  | b0 :: rest =>
    if b0 < 0x80 then (b0, 1)
    else if b0 < 0xC2 then (RuneError, 1)
    else if b0 < 0xE0 then
      match rest with
      | b1 :: _ => if isCont b1 then (b0 % 32 * 64 + b1 % 64, 2) else (RuneError, 1)
      | _ => (RuneError, 1)
    else if b0 < 0xF0 then
      match rest with
      | b1 :: b2 :: _ =>
        let lo := if b0 = 0xE0 then 0xA0 else 0x80
        let hi := if b0 = 0xED then 0x9F else 0xBF
        if lo ≤ b1 && b1 ≤ hi && isCont b2 then
          (b0 % 16 * 4096 + b1 % 64 * 64 + b2 % 64, 3)
        else (RuneError, 1)
      | _ => (RuneError, 1)
    else if b0 < 0xF5 then
      match rest with
      | b1 :: b2 :: b3 :: _ =>
        let lo := if b0 = 0xF0 then 0x90 else 0x80
        let hi := if b0 = 0xF4 then 0x8F else 0xBF
        if lo ≤ b1 && b1 ≤ hi && isCont b2 && isCont b3 then
          (b0 % 8 * 262144 + b1 % 64 * 4096 + b2 % 64 * 64 + b3 % 64, 4)
        else (RuneError, 1)
      | _ => (RuneError, 1)
    else (RuneError, 1)

/-- Go's `utf8.ValidString`, by fuel: every position decodes to a rune other
than the one-byte `RuneError`. -/
def validStringAux : Nat → GoString → Bool
  | _, [] => true
  | 0, _ :: _ => false
  | fuel + 1, b :: rest =>
    let d := decodeRune (b :: rest)
    if d.1 = RuneError ∧ d.2 = 1 then false
    else validStringAux fuel ((b :: rest).drop d.2)

/-- Go's `utf8.ValidString`: the bytes are well-formed UTF-8. -/
def ValidString (s : GoString) : Bool := validStringAux s.length s

/-- The lower-case hexadecimal digit of a number below 16. -/
def hexDigit (n : Nat) : Nat := if n < 10 then 0x30 + n else 0x61 + (n - 10)

/-- The bytes `encoding/json` writes for one ASCII byte of a string, HTML
escaping on (the setting `json.Marshal` uses).  Backspace and form feed are
written as `\u0008` and `\u000c`, as the Go releases of the adapter's time do;
later ones write `\b` and `\f`, which `scanString` reads as well. -/
def encodeASCII (b : Nat) : GoString :=
  if b = 0x22 ∨ b = 0x5C then [0x5C, b]
  else if b = 0x0A then [0x5C, 0x6E]
  else if b = 0x0D then [0x5C, 0x72]
  else if b = 0x09 then [0x5C, 0x74]
  else if b < 0x20 ∨ b = 0x3C ∨ b = 0x3E ∨ b = 0x26 then
    [0x5C, 0x75, 0x30, 0x30, hexDigit (b / 16), hexDigit (b % 16)]
  else [b]

/-- The body of a JSON string literal as `encoding/json` writes it. -/
def encodeStringAux : Nat → GoString → GoString
  | _, [] => []
  | 0, _ :: _ => []
  | fuel + 1, b :: rest =>
    if b < 0x80 then encodeASCII b ++ encodeStringAux fuel rest
    else
      let d := decodeRune (b :: rest)
      if d.1 = RuneError ∧ d.2 = 1 then
        utf8 "\\ufffd" ++ encodeStringAux fuel rest
      else if d.1 = 0x2028 then utf8 "\\u2028" ++ encodeStringAux fuel ((b :: rest).drop d.2)
      else if d.1 = 0x2029 then utf8 "\\u2029" ++ encodeStringAux fuel ((b :: rest).drop d.2)
      else (b :: rest).take d.2 ++ encodeStringAux fuel ((b :: rest).drop d.2)

/-- A JSON string literal as `encoding/json` writes it, quotes included. -/
def encodeString (s : GoString) : GoString :=
  0x22 :: encodeStringAux s.length s ++ [0x22]

/-- Go's `json.Marshal` at type `LogDocument`: the two tagged fields in
declaration order. -/
def marshalLogDocument (d : LogDocument) : GoString :=
  utf8 "\x7b\"timestamp\":" ++ encodeString d.Timestamp ++ utf8 ",\"msg\":" ++
    encodeString d.Msg ++ utf8 "\x7d"

/-- JSON white space. -/
def isSpace (b : Nat) : Bool := b = 0x20 || b = 0x09 || b = 0x0D || b = 0x0A

/-- The input after its leading white space. -/
def skipSpace : GoString → GoString
  | [] => []
  | b :: rest => if isSpace b then skipSpace rest else b :: rest

/-- A decimal digit. -/
def isDigit (b : Nat) : Bool := 0x30 ≤ b && b ≤ 0x39

/-- Value of a hexadecimal digit. -/
def unhex (b : Nat) : Option Nat :=
  if 0x30 ≤ b ∧ b ≤ 0x39 then some (b - 0x30)
  else if 0x61 ≤ b ∧ b ≤ 0x66 then some (b - 0x61 + 10)
  else if 0x41 ≤ b ∧ b ≤ 0x46 then some (b - 0x41 + 10)
  else none

/-- Four hexadecimal digits (the digits of a `\u` escape) and what follows. -/
def getu4 : GoString → Option (Nat × GoString)
  | a :: b :: c :: d :: rest =>
    match unhex a, unhex b, unhex c, unhex d with
    | some a, some b, some c, some d => some (((a * 16 + b) * 16 + c) * 16 + d, rest)
    | _, _, _, _ => none
  | _ => none

/-- The byte a one-letter escape stands for. -/
def simpleEscape (e : Nat) : Option Nat :=
  if e = 0x22 ∨ e = 0x5C ∨ e = 0x2F then some e
  else if e = 0x62 then some 0x08
  else if e = 0x66 then some 0x0C
  else if e = 0x6E then some 0x0A
  else if e = 0x72 then some 0x0D
  else if e = 0x74 then some 0x09
  else none

/-- Go's `utf8.EncodeRune`: surrogates and values past U+10FFFF are written
as `RuneError`. -/
def encodeRune (r : Nat) : GoString :=
  if (0xD800 ≤ r ∧ r < 0xE000) ∨ 0x10FFFF < r then utf8EncodeRune RuneError
  else utf8EncodeRune r

/-- The rune a `\u` escape with value `rr` yields, and the input left: a high
surrogate followed by an escaped low surrogate is one rune, any other
surrogate is `RuneError`. -/
def escapedRune (rr : Nat) (rest : GoString) : Nat × GoString :=
  if 0xD800 ≤ rr ∧ rr < 0xE000 then
    match rest with
    | 0x5C :: 0x75 :: rest1 =>
      match getu4 rest1 with
      | some (rr1, rest2) =>
        if rr < 0xDC00 ∧ 0xDC00 ≤ rr1 ∧ rr1 < 0xE000 then
          ((rr - 0xD800) * 1024 + (rr1 - 0xDC00) + 0x10000, rest2)
        else (RuneError, rest)
      | none => (RuneError, rest)
    | _ => (RuneError, rest)
  else (rr, rest)

/-- Puts decoded bytes in front of what the rest of a literal decodes to. -/
def prepend (pre : GoString) : Option (GoString × GoString) → Option (GoString × GoString)
  | none => none
  | some (s, out) => some (pre ++ s, out)

/-- Reads a string literal whose opening quote has been consumed: the decoded
bytes and the input after the closing quote; `none` when the literal is not
valid JSON.  Bytes that are not well-formed UTF-8 decode to U+FFFD. -/
def scanString : Nat → GoString → Option (GoString × GoString)
  | 0, _ => none
  | _ + 1, [] => none
  | fuel + 1, b :: rest =>
    if b = 0x22 then some ([], rest)
    else if b = 0x5C then
      match rest with
      | [] => none
      | e :: rest1 =>
        if e = 0x75 then
          match getu4 rest1 with
          | none => none
          | some (rr, rest2) =>
            prepend (encodeRune (escapedRune rr rest2).1) (scanString fuel (escapedRune rr rest2).2)
        else
          match simpleEscape e with
          | none => none
          | some c => prepend [c] (scanString fuel rest1)
    else if b < 0x20 then none
    else if b < 0x80 then prepend [b] (scanString fuel rest)
    else
      prepend (encodeRune (decodeRune (b :: rest)).1)
        (scanString fuel ((b :: rest).drop (decodeRune (b :: rest)).2))

/-- The leading decimal digits of the input and what follows them. -/
def takeDigits : GoString → GoString × GoString
  | [] => ([], [])
  | b :: rest =>
    if isDigit b then ((takeDigits rest).1.cons b, (takeDigits rest).2) else ([], b :: rest)

/-- Reads a number literal: its bytes and the input after it. -/
def scanNumber (input : GoString) : Option (GoString × GoString) :=
  let (sign, r0) := match input with
    | 0x2D :: r => ([0x2D], r)
    | r => ([], r)
  let intPart : Option (GoString × GoString) := match r0 with
    | 0x30 :: r => some ([0x30], r)
    | b :: r => if isDigit b then some (b :: (takeDigits r).1, (takeDigits r).2) else none
    | [] => none
  match intPart with
  | none => none
  | some (ip, r1) =>
    let frac : Option (GoString × GoString) := match r1 with
      | 0x2E :: r =>
        let ds := takeDigits r
        if ds.1 = [] then none else some (0x2E :: ds.1, ds.2)
      | r => some ([], r)
    match frac with
    | none => none
    | some (fp, r2) =>
      let exp : Option (GoString × GoString) := match r2 with
        | e :: r =>
          if e = 0x65 ∨ e = 0x45 then
            let (sg, r3) := match r with
              | s :: r4 => if s = 0x2B ∨ s = 0x2D then ([s], r4) else ([], s :: r4)
              | [] => ([], [])
            let ds := takeDigits r3
            if ds.1 = [] then none else some (e :: sg ++ ds.1, ds.2)
          else some ([], e :: r)
        | [] => some ([], [])
      match exp with
      | none => none
      | some (ep, r5) => some (sign ++ ip ++ fp ++ ep, r5)

/-- A decoded JSON value; a number keeps its literal, an object its members
in input order. -/
inductive JVal where
  | null
  | bool (b : Bool)
  | number (lit : GoString)
  | string (s : GoString)
  | array (items : List JVal)
  | object (members : List (GoString × JVal))

/-- The input after a literal it starts with. -/
def stripLit (lit : GoString) (input : GoString) : Option GoString :=
  if lit.isPrefixOf input then some (input.drop lit.length) else none

mutual
/-- Reads one JSON value at the head of the input. -/
def parseValue : Nat → GoString → Option (JVal × GoString)
  | 0, _ => none
  | _ + 1, [] => none
  | fuel + 1, b :: rest =>
    if b = 0x7B then
      match skipSpace rest with
      | 0x7D :: out => some (.object [], out)
      | r => match parseMembers fuel r with
        | none => none
        | some (ms, out) => some (.object ms, out)
    else if b = 0x5B then
      match skipSpace rest with
      | 0x5D :: out => some (.array [], out)
      | r => match parseElements fuel r with
        | none => none
        | some (vs, out) => some (.array vs, out)
    else if b = 0x22 then
      match scanString (rest.length + 1) rest with
      | none => none
      | some (s, out) => some (.string s, out)
    else if b = 0x74 then (stripLit (utf8 "true") (b :: rest)).map fun out => (.bool true, out)
    else if b = 0x66 then (stripLit (utf8 "false") (b :: rest)).map fun out => (.bool false, out)
    else if b = 0x6E then (stripLit (utf8 "null") (b :: rest)).map fun out => (.null, out)
    else
      match scanNumber (b :: rest) with
      | none => none
      | some (lit, out) => some (.number lit, out)
/-- Reads the members of an object from the first key to the closing brace. -/
def parseMembers : Nat → GoString → Option (List (GoString × JVal) × GoString)
  | 0, _ => none
  | fuel + 1, input =>
    match input with
    | 0x22 :: rest =>
      match scanString (rest.length + 1) rest with
      | none => none
      | some (key, r1) =>
        match skipSpace r1 with
        | 0x3A :: r2 =>
          match parseValue fuel (skipSpace r2) with
          | none => none
          | some (v, r3) =>
            match skipSpace r3 with
            | 0x7D :: out => some ([(key, v)], out)
            | 0x2C :: r4 =>
              match parseMembers fuel (skipSpace r4) with
              | none => none
              | some (ms, out) => some ((key, v) :: ms, out)
            | _ => none
        | _ => none
    | _ => none
/-- Reads the elements of an array from the first one to the closing bracket. -/
def parseElements : Nat → GoString → Option (List JVal × GoString)
  | 0, _ => none
  | fuel + 1, input =>
    match parseValue fuel input with
    | none => none
    | some (v, r1) =>
      match skipSpace r1 with
      | 0x5D :: out => some ([v], out)
      | 0x2C :: r2 =>
        match parseElements fuel (skipSpace r2) with
        | none => none
        | some (vs, out) => some (v :: vs, out)
      | _ => none
end

/-- A whole JSON text: one value, white space allowed around it.  The limit
Go puts on nesting depth (10000) is not modelled. -/
def parseJSON (data : GoString) : Option JVal :=
  match parseValue (data.length + 1) (skipSpace data) with
  | none => none
  | some (v, rest) => if skipSpace rest = [] then some v else none

/-- Case folding of a key as `encoding/json` matches field names: ASCII
letters to upper case, U+017F to `S`, U+212A to `K`. -/
def foldName : GoString → GoString
  | 0xC5 :: 0xBF :: rest => 0x53 :: foldName rest
  | 0xE2 :: 0x84 :: 0xAA :: rest => 0x4B :: foldName rest
  | b :: rest => (if 0x61 ≤ b ∧ b ≤ 0x7A then b - 0x20 else b) :: foldName rest
  | [] => []

/-- Go's `strconv.ParseInt(lit, 10, 64)` on a JSON number literal. -/
def parseInt64 (lit : GoString) : Option Int :=
  let (neg, ds) := match lit with
    | 0x2D :: r => (true, r)
    | r => (false, r)
  if ds = [] ∨ ¬ ds.all isDigit then none
  else
    let n : Nat := ds.foldl (fun acc d => acc * 10 + (d - 0x30)) 0
    if neg then (if n ≤ 2 ^ 63 then some (-(n : Int)) else none)
    else (if n < 2 ^ 63 then some (n : Int) else none)

/-- Decoding of the members of a JSON object into a `LogDocument`; the flag
records a value of the wrong type. -/
def decodeLogDocumentMembers :
    List (GoString × JVal) → LogDocument → Bool → Bool × LogDocument
  | [], d, bad => (bad, d)
  | (key, v) :: ms, d, bad =>
    if foldName key = foldName (utf8 "timestamp") then
      match v with
      | .string s => decodeLogDocumentMembers ms { d with Timestamp := s } bad
      | .null => decodeLogDocumentMembers ms d bad
      | _ => decodeLogDocumentMembers ms d true
    else if foldName key = foldName (utf8 "msg") then
      match v with
      | .string s => decodeLogDocumentMembers ms { d with Msg := s } bad
      | .null => decodeLogDocumentMembers ms d bad
      | _ => decodeLogDocumentMembers ms d true
    else decodeLogDocumentMembers ms d bad

/-! ## `net/url` -/

/-- An error of package `net/url`, named by the fixed words of its message;
the quoted character, escape or port that Go prints with them is left out. -/
def urlError (msg : String) : GoError := .lib "net/url" (utf8 msg)

/-- An ASCII letter. -/
def isAlpha (b : Nat) : Bool := (0x61 ≤ b && b ≤ 0x7A) || (0x41 ≤ b && b ≤ 0x5A)

/-- Go's `strings.Cut` at a one-byte separator: the text before the first
separator, the text after it, and whether there is one. -/
def cut (sep : Nat) : GoString → GoString × GoString × Bool
  | [] => ([], [], false)
  | b :: rest =>
    if b = sep then ([], rest, true)
    else ((cut sep rest).1.cons b, (cut sep rest).2.1, (cut sep rest).2.2)

/-- Go's `strings.LastIndex` at a one-byte separator, as the text before the
last separator and the text from it on. -/
def cutLast (sep : Nat) (s : GoString) : Option (GoString × GoString) :=
  let r := cut sep s.reverse
  if r.2.2 then some (r.2.1.reverse, sep :: r.1.reverse) else none

/-- Go's `strings.ToLower` on the ASCII letters of a scheme. -/
def toLowerASCII (s : GoString) : GoString :=
  s.map fun b => if 0x41 ≤ b ∧ b ≤ 0x5A then b + 0x20 else b

/-- Function `getScheme` of `net/url`, scanning from index `i`. -/
def getSchemeAux (raw : GoString) : Nat → GoString → Except GoError (GoString × GoString)
  | _, [] => .ok ([], raw)
  | i, c :: rest =>
    if isAlpha c then getSchemeAux raw (i + 1) rest
    else if isDigit c ∨ c = 0x2B ∨ c = 0x2D ∨ c = 0x2E then
      if i = 0 then .ok ([], raw) else getSchemeAux raw (i + 1) rest
    else if c = 0x3A then
      if i = 0 then .error (urlError "missing protocol scheme") else .ok (raw.take i, rest)
    else .ok ([], raw)

/-- Function `getScheme` of `net/url`: the scheme (empty when there is none)
and the rest of the URL. -/
def getScheme (raw : GoString) : Except GoError (GoString × GoString) :=
  getSchemeAux raw 0 raw

/-- Function `shouldEscape` of `net/url` in mode `encodeHost`. -/
def shouldEscapeHost (c : Nat) : Bool :=
  !(isAlpha c || isDigit c || (utf8 "!$&\'()*+,;=:[]<>\"").contains c ||
    (utf8 "-_.~").contains c)

/-- The parts of a URL that `unescape` of `net/url` treats differently. -/
inductive Mode where
  | path | host | zone | userPassword | fragment
deriving DecidableEq, Repr

/-- Function `unescape` of `net/url`: checks and undoes percent-encoding. -/
def unescape (mode : Mode) : GoString → Except GoError GoString
  | [] => .ok []
  | 0x25 :: rest =>
    match rest with
    | h :: l :: rest1 =>
      match unhex h, unhex l with
      | some hv, some lv =>
        if mode = .host ∧ hv < 8 ∧ ¬ (h = 0x32 ∧ l = 0x35) then
          .error (urlError "invalid URL escape")
        else if mode = .zone ∧ ¬ (h = 0x32 ∧ l = 0x35) ∧ hv * 16 + lv ≠ 0x20 ∧
            shouldEscapeHost (hv * 16 + lv) then
          .error (urlError "invalid URL escape")
        else
          match unescape mode rest1 with
          | .error e => .error e
          | .ok s => .ok ((hv * 16 + lv) :: s)
      | _, _ => .error (urlError "invalid URL escape")
    | _ => .error (urlError "invalid URL escape")
  | c :: rest =>
    if (mode = .host ∨ mode = .zone) ∧ c < 0x80 ∧ shouldEscapeHost c then
      .error (urlError "invalid character in host name")
    else
      match unescape mode rest with
      | .error e => .error e
      | .ok s => .ok (c :: s)

/-- Function `validOptionalPort` of `net/url`. -/
def validOptionalPort : GoString → Bool
  | [] => true
  | c :: rest => c = 0x3A && rest.all isDigit

/-- Function `validUserinfo` of `net/url`. -/
def validUserinfo (s : GoString) : Bool :=
  s.all fun c => isAlpha c || isDigit c || (utf8 "-._:~!$&\'()*+,;=%@").contains c

/-- The index of the first `%25` in a host, as the text before it and the text
from it on. -/
def cutZone : GoString → Option (GoString × GoString)
  | [] => none
  | c :: rest =>
    if (utf8 "%25").isPrefixOf (c :: rest) then some ([], c :: rest)
    else (cutZone rest).map fun p => (c :: p.1, p.2)

/-- Function `parseHost` of `net/url` as in the Go releases that take any
text between the brackets of an IP literal (later releases also require an
IPv6 address there). -/
def parseHostUnchecked (host : GoString) : Except GoError GoString :=
  match host with
  | 0x5B :: _ =>
    match cutLast 0x5D host with
    | none => .error (urlError "missing ']' in host")
    | some (lit, closing) =>
      if ¬ validOptionalPort (closing.drop 1) then .error (urlError "invalid port after host")
      else
        match cutZone lit with
        | some (h1, z) =>
          match unescape .host h1, unescape .zone z, unescape .host closing with
          | .ok a, .ok b, .ok c => .ok (a ++ b ++ c)
          | .error e, _, _ => .error e
          | _, .error e, _ => .error e
          | _, _, .error e => .error e
        | none => unescape .host host
  | _ =>
    match cutLast 0x3A host with
    | some (_, colonPort) =>
      if ¬ validOptionalPort colonPort then .error (urlError "invalid port after host")
      else unescape .host host
    | none => unescape .host host

/-- Function `parseHost` of `net/url`.  What it does with a host that holds an
opening bracket differs between Go releases and is the parameter `bracketed`;
a host without one has its port and its escapes checked. -/
def parseHost (bracketed : GoString → Except GoError GoString) (host : GoString) :
    Except GoError GoString :=
  if host.contains 0x5B then bracketed host
  else
    match cutLast 0x3A host with
    | some (_, colonPort) =>
      if ¬ validOptionalPort colonPort then .error (urlError "invalid port after host")
      else unescape .host host
    | none => unescape .host host

/-- Function `parseAuthority` of `net/url`, reduced to the host it returns. -/
def parseAuthority (bracketed : GoString → Except GoError GoString)
    (authority : GoString) : Except GoError GoString :=
  match cutLast 0x40 authority with
  | none => parseHost bracketed authority
  | some (userinfo, atHost) =>
    match parseHost bracketed (atHost.drop 1) with
    | .error e => .error e
    | .ok host =>
      if ¬ validUserinfo userinfo then .error (urlError "invalid userinfo")
      else
        let up := cut 0x3A userinfo
        match unescape .userPassword up.1, unescape .userPassword up.2.1 with
        | .ok _, .ok _ => .ok host
        | .error e, _ => .error e
        | _, .error e => .error e

/-- Function `parse` of `net/url` with `viaRequest` false. -/
def parseNoFragment (bracketed : GoString → Except GoError GoString)
    (raw : GoString) : Except GoError URL :=
  if raw.any (fun b => b < 0x20 || b = 0x7F) then
    .error (urlError "invalid control character in URL")
  else if raw = utf8 "*" then .ok ⟨[], [], [], utf8 "*", [], []⟩
  else
    match getScheme raw with
    | .error e => .error e
    | .ok (scheme0, rest0) =>
      let scheme := toLowerASCII scheme0
      let q := cut 0x3F rest0
      let rest := q.1
      let rawQuery := q.2.1
      if ¬ rest.head? = some 0x2F ∧ scheme ≠ [] then .ok ⟨scheme, rest, [], [], rawQuery, []⟩
      else if ¬ rest.head? = some 0x2F ∧ (cut 0x2F rest).1.contains 0x3A then
        .error (urlError "first path segment in URL cannot contain colon")
      else if (scheme ≠ [] ∨ ¬ (utf8 "///").isPrefixOf rest) ∧ (utf8 "//").isPrefixOf rest then
        let a := cut 0x2F (rest.drop 2)
        let path := if a.2.2 then 0x2F :: a.2.1 else []
        match parseAuthority bracketed a.1 with
        | .error e => .error e
        | .ok host =>
          match unescape .path path with
          | .error e => .error e
          | .ok p => .ok ⟨scheme, [], host, p, rawQuery, []⟩
      else
        match unescape .path rest with
        | .error e => .error e
        | .ok p => .ok ⟨scheme, [], [], p, rawQuery, []⟩

/-- Go's `url.Parse`, with the release's handling of a bracketed host as the
parameter.  Of the URL it builds, `User`, `RawPath`, `ForceQuery` and
`OmitHost` are left out. -/
def urlParse (bracketed : GoString → Except GoError GoString) (raw : GoString) :
    Except GoError URL :=
  let f := cut 0x23 raw
  match parseNoFragment bracketed f.1 with
  | .error e => .error e
  | .ok u =>
    if f.2.1 = [] then .ok u
    else
      match unescape .fragment f.2.1 with
      | .error e => .error e
      | .ok frag => .ok { u with Fragment := frag }


/-! ## `time` -/

/-- Decimal digits of a number, most significant first. -/
def decimalAux : Nat → Nat → GoString → GoString
  | 0, _, acc => acc
  | fuel + 1, n, acc =>
    if n < 10 then (0x30 + n) :: acc
    else decimalAux fuel (n / 10) ((0x30 + n % 10) :: acc)

/-- Decimal digits of a number. -/
def decimal (n : Nat) : GoString := decimalAux (n + 1) n []

/-- Function `appendInt` of package `time`: a minus sign for a negative
number, then its digits padded with zeros to `width`. -/
def appendInt (x : Int) (width : Nat) : GoString :=
  let ds := decimal x.natAbs
  (if x < 0 then [0x2D] else []) ++ List.replicate (width - ds.length) 0x30 ++ ds

/-- The zone of layout element `Z07:00`. -/
def formatZone (offset : Int) : GoString :=
  if offset = 0 then [0x5A]
  else
    let zone := offset.tdiv 60
    let az : Int := if zone < 0 then -zone else zone
    [if zone < 0 then 0x2D else 0x2B] ++ appendInt (az.tdiv 60) 2 ++ [0x3A] ++
      appendInt (az.tmod 60) 2

/-- Go's `t.Format(time.RFC3339)`, layout `2006-01-02T15:04:05Z07:00`: the
layout has no fraction of a second, so the nanoseconds are not printed. -/
def timeFormatRFC3339 (t : Time) : GoString :=
  appendInt t.year 4 ++ [0x2D] ++ appendInt t.month 2 ++ [0x2D] ++ appendInt t.day 2 ++
    [0x54] ++ appendInt t.hour 2 ++ [0x3A] ++ appendInt t.minute 2 ++ [0x3A] ++
    appendInt t.second 2 ++ formatZone t.offset

/-- What the adapter uses from outside its own file.
* `LevelDebug`: the host framework's constant `gologs.LevelDebug`;
* `indexNaming`: the policy held by the package-level variable `indexNaming`
  (declared outside this file; the default policy, a pure function of the
  record);
* `jsonUnmarshal config x`: `json.Unmarshal([]byte(config), el)` on an adapter
  whose exported fields are `x`, giving the returned error and the exported
  fields as the decoder left them;
* `urlParse`: `url.Parse`;
* `newClient addrs`: `elasticsearch.NewClient` with `Addresses: addrs`;
* `getFormatter`: `gologs.GetFormatter`, `none` when the flag `ok` is false;
* `doIndex req c`: `req.Do(context.Background(), c)`, reduced to its error;
* `oldStyleFormat`: the record method `OldStyleFormat`;
* `timeFormatRFC3339 t`: `t.Format(time.RFC3339)`;
* `jsonMarshal`: `json.Marshal` at type `LogDocument`. -/
structure Env where
  LevelDebug : Int
  indexNaming : NamingPolicy
  jsonUnmarshal : GoString → Exported → Option GoError × Exported
  urlParse : GoString → Except GoError URL
  newClient : List GoString → Except GoError Client
  getFormatter : GoString → Option LogFormatter
  doIndex : IndexRequest → Option Client → Outcome (Option GoError)
  oldStyleFormat : LogMsg → GoString
  timeFormatRFC3339 : Time → GoString
  jsonMarshal : LogDocument → Except GoError GoString

/-- One call that leaves the adapter's file. -/
inductive Event where
  | unmarshal (config : GoString)
  | urlParse (raw : GoString)
  | newClient (addrs : List GoString)
  | getFormatter (name : GoString)
  | format (lm : LogMsg)
  | indexName (lm : LogMsg)
  | indexRequest (req : IndexRequest) (client : Option Client)
deriving DecidableEq, Repr

/-- Function `NewES`. -/
def NewES (env : Env) : esLogger :=
  { Client := none
    DSN := []
    Level := env.LevelDebug
    formatter := none
    Formatter := []
    indexNaming := some env.indexNaming }

/-- Method `esLogger.Format`. -/
def Format (env : Env) (_el : esLogger) (lm : LogMsg) : GoString :=
  let msg := env.oldStyleFormat lm
  let idx : LogDocument := { Timestamp := env.timeFormatRFC3339 lm.When, Msg := msg }
  match env.jsonMarshal idx with
  | .error _ => msg
  | .ok body => body

/-- Method `esLogger.SetFormatter`. -/
def SetFormatter (el : esLogger) (f : LogFormatter) : esLogger :=
  { el with formatter := f }

/-- The return statement at which `Init` ends. -/
inductive InitExit where
  | unmarshalError (e : GoError)
  | emptyDsn
  | urlError (e : GoError)
  | missingPrefixErr
  | clientError (e : GoError)
  | formatterNotFound (name : GoString)
  | success
deriving DecidableEq, Repr

/-- The `error` value `Init` returns at each exit. -/
def InitExit.err : InitExit → Option GoError
  | .unmarshalError e => some e
  | .emptyDsn => some (.errorString (utf8 "empty dsn"))
  | .urlError e => some e
  | .missingPrefixErr => some (.errorString (utf8 "missing prefix"))
  | .clientError e => some e
  | .formatterNotFound name =>
      some (.errorString (utf8 "the formatter with name: " ++ name ++ utf8 " not found"))
  | .success => none

/-- The result of running `Init`: where it returned, the adapter afterwards,
and the outside calls it made. -/
structure InitResult where
  exit : InitExit
  el : esLogger
  trace : List Event

/-- Method `esLogger.Init`. -/
def Init (env : Env) (config : GoString) (el : esLogger) : InitResult :=
  match env.jsonUnmarshal config el.exported with
  | (some e, x) => ⟨.unmarshalError e, el.withExported x, [.unmarshal config]⟩
  | (none, x) =>
    let el1 := el.withExported x
    if el1.DSN = [] then ⟨.emptyDsn, el1, [.unmarshal config]⟩
    else
      match env.urlParse el1.DSN with
      | .error e => ⟨.urlError e, el1, [.unmarshal config, .urlParse el1.DSN]⟩
      | .ok u =>
        if u.Path = [] then
          ⟨.missingPrefixErr, el1, [.unmarshal config, .urlParse el1.DSN]⟩
        else
          match env.newClient [el1.DSN] with
          | .error e =>
            ⟨.clientError e, el1,
              [.unmarshal config, .urlParse el1.DSN, .newClient [el1.DSN]]⟩
          | .ok conn =>
            let el2 : esLogger := { el1 with Client := some conn }
            if el2.Formatter.length > 0 then
              match env.getFormatter el2.Formatter with
              | none =>
                ⟨.formatterNotFound el2.Formatter, el2,
                  [.unmarshal config, .urlParse el1.DSN, .newClient [el1.DSN],
                   .getFormatter el2.Formatter]⟩
              | some fmtr =>
                ⟨.success, { el2 with formatter := fmtr },
                  [.unmarshal config, .urlParse el1.DSN, .newClient [el1.DSN],
                   .getFormatter el2.Formatter]⟩
            else
              ⟨.success, el2,
                [.unmarshal config, .urlParse el1.DSN, .newClient [el1.DSN]]⟩

/-- The result of running `WriteMsg`: the returned error (or the panic) and
the outside calls made. -/
structure WriteResult where
  result : Outcome (Option GoError)
  trace : List Event

/-- Method `esLogger.WriteMsg`.  The index name comes from the package-level
variable `indexNaming`, as in the source. -/
def WriteMsg (env : Env) (el : esLogger) (lm : LogMsg) : WriteResult :=
  if lm.Level > el.Level then ⟨.returned none, []⟩
  else
    match el.formatter with
    | none => ⟨.panicked, []⟩
    | some f =>
      let msg := f.Format lm
      let req : IndexRequest :=
        { Index := env.indexNaming.IndexName lm
          DocumentType := utf8 "logs"
          Body := msg }
      ⟨env.doIndex req el.Client,
        [.format lm, .indexName lm, .indexRequest req el.Client]⟩

/-- Method `esLogger.Destroy`. -/
def Destroy (el : esLogger) : esLogger := el

/-- Method `esLogger.Flush`. -/
def Flush (el : esLogger) : esLogger := el

/-! ## The standard library behind `Env` -/

/-- An error of package `encoding/json`, named by its Go type. -/
def jsonError (kind : String) : GoError := .lib "encoding/json" (utf8 kind)

/-- The error the decoder reports at the end: the first one saved. -/
def saveError (saved : Option GoError) : Option GoError :=
  match saved with
  | some e => some e
  | none => some (jsonError "UnmarshalTypeError")

/-- The fields `encoding/json` reaches through the embedded
`*elasticsearch.Client`, a type of the client library: for a key, `none` when
it names no such field, else whether a value decodes into the field without a
type error. -/
abbrev Promoted := GoString → Option (JVal → Bool)

/-- The client `new(elasticsearch.Client)`: what the decoder allocates when it
walks into a nil embedded pointer. -/
def zeroClient : Client := ⟨0⟩

/-- Whether a key names one of the adapter's own tagged fields. -/
def isOwnKey (key : GoString) : Bool :=
  foldName key = foldName (utf8 "dsn") || foldName key = foldName (utf8 "level") ||
    foldName key = foldName (utf8 "formatter")

/-- Whether a key makes the decoder walk into the embedded client: it names a
promoted field and none of the adapter's own, which come first. -/
def isPromotedKey (p : Promoted) (key : GoString) : Bool :=
  !isOwnKey key && (p key).isSome

/-- Decoding of one member of a JSON object into an `esLogger`: a value of the
wrong type is an error the decoder saves while it goes on, `null` leaves a
field as it is, a key that names no field is skipped.  For a key that names a
field promoted from the embedded client, the decoder first allocates the
client if the pointer is nil, whatever the value is; what it then writes
inside the client is not modelled, a client being known by its identity. -/
def decodeEsLoggerMember (p : Promoted) (key : GoString) (v : JVal) (x : Exported)
    (saved : Option GoError) : Option GoError × Exported :=
  if foldName key = foldName (utf8 "dsn") then
    match v with
    | .string s => (saved, { x with DSN := s })
    | .null => (saved, x)
    | _ => (saveError saved, x)
  else if foldName key = foldName (utf8 "level") then
    match v with
    | .number lit =>
      match parseInt64 lit with
      | some n => (saved, { x with Level := n })
      | none => (saveError saved, x)
    | .null => (saved, x)
    | _ => (saveError saved, x)
  else if foldName key = foldName (utf8 "formatter") then
    match v with
    | .string s => (saved, { x with Formatter := s })
    | .null => (saved, x)
    | _ => (saveError saved, x)
  else
    match p key with
    | none => (saved, x)
    | some accepts =>
      (if accepts v then saved else saveError saved,
        { x with Client := some (x.Client.getD zeroClient) })

/-- Decoding of the members of a JSON object into an `esLogger`, in input
order. -/
def decodeEsLoggerMembers (p : Promoted) :
    List (GoString × JVal) → Exported → Option GoError → Option GoError × Exported
  | [], x, saved => (saved, x)
  | (key, v) :: ms, x, saved =>
    decodeEsLoggerMembers p ms (decodeEsLoggerMember p key v x saved).2
      (decodeEsLoggerMember p key v x saved).1

/-- Go's `json.Unmarshal(data, el)` for `el *esLogger`, the fields of the
client type as a parameter. -/
def jsonUnmarshalEsLogger (p : Promoted) (data : GoString) (x : Exported) :
    Option GoError × Exported :=
  match parseJSON data with
  | none => (some (jsonError "SyntaxError"), x)
  | some (.object ms) => decodeEsLoggerMembers p ms x none
  | some .null => (none, x)
  | some _ => (some (jsonError "UnmarshalTypeError"), x)

/-- Go's `json.Unmarshal(data, &doc)` for `doc LogDocument`. -/
def jsonUnmarshalLogDocument (data : GoString) (d : LogDocument) : Option GoError × LogDocument :=
  match parseJSON data with
  | none => (some (jsonError "SyntaxError"), d)
  | some (.object ms) =>
    let r := decodeLogDocumentMembers ms d false
    (if r.1 then some (jsonError "UnmarshalTypeError") else none, r.2)
  | some .null => (none, d)
  | some _ => (some (jsonError "UnmarshalTypeError"), d)

/-- Whether a key of a JSON text, an object, makes the decoder walk into the
embedded client. -/
def namesPromoted (p : Promoted) (data : GoString) : Bool :=
  match parseJSON data with
  | some (.object ms) => ms.any fun m => isPromotedKey p m.1
  | _ => false

/-- Whether a key of a JSON text, an object, names the field tagged
`formatter`. -/
def namesFormatter (data : GoString) : Bool :=
  match parseJSON data with
  | some (.object ms) => ms.any fun m => foldName m.1 = foldName (utf8 "formatter")
  | _ => false

/-- What the adapter uses from outside its file and outside the parts of the
Go standard library modelled above: the package variable `indexNaming`, the
client library (its constructor, its index call, and the fields of its client
type that the decoder reaches), the host framework, and the release's
handling of a bracketed host in a URL. -/
structure Host where
  promoted : Promoted
  bracketedHost : GoString → Except GoError GoString
  LevelDebug : Int
  indexNaming : NamingPolicy
  newClient : List GoString → Except GoError Client
  getFormatter : GoString → Option LogFormatter
  doIndex : IndexRequest → Option Client → Outcome (Option GoError)
  oldStyleFormat : LogMsg → GoString

/-- The environment of a host, with the Go standard library as modelled
above.  `json.Marshal` has no error at type `LogDocument`. -/
def goEnv (h : Host) : Env :=
  { LevelDebug := h.LevelDebug
    indexNaming := h.indexNaming
    jsonUnmarshal := jsonUnmarshalEsLogger h.promoted
    urlParse := urlParse h.bracketedHost
    newClient := h.newClient
    getFormatter := h.getFormatter
    doIndex := h.doIndex
    oldStyleFormat := h.oldStyleFormat
    timeFormatRFC3339 := timeFormatRFC3339
    jsonMarshal := fun d => .ok (marshalLogDocument d) }

/-- Go's `strings.TrimRight(s, "/")`. -/
def trimRightSlash (s : GoString) : GoString :=
  (s.reverse.dropWhile fun b => b = 0x2F).reverse

/-- A naming policy: the record's date as `2006.01.02`. -/
def dateNaming : NamingPolicy :=
  { IndexName := fun lm =>
      appendInt lm.When.year 4 ++ [0x2E] ++ appendInt lm.When.month 2 ++ [0x2E] ++
        appendInt lm.When.day 2 }

/-- A formatter that returns the record's message content. -/
def plainFormatter : Formatter := { Format := fun lm => lm.Msg }

/-- Whether a JSON value is `null`. -/
def JVal.isNull : JVal → Bool
  | .null => true
  | _ => false

/-- Two of the fields the decoder reaches through the embedded client:
`Transport`, of an interface type, and `Index`, of a function type; each takes
`null` and nothing else. -/
def clientFields : Promoted := fun key =>
  if foldName key = foldName (utf8 "Transport") ∨ foldName key = foldName (utf8 "Index") then
    some JVal.isNull
  else none

/-- A host for concrete runs: the client fields `Transport` and `Index`;
bracketed hosts unchecked; debug level 7, the least severe of the eight
syslog levels; the date policy in `indexNaming`; a client
library that builds client 1 when every address, trailing slashes trimmed,
parses as a URL, and whose index call returns nil on a client and panics on a
nil one; a registry holding `plainFormatter` under the name `plain`; records
rendered as their message content. -/
def sampleHost : Host :=
  { promoted := clientFields
    bracketedHost := parseHostUnchecked
    LevelDebug := 7
    indexNaming := dateNaming
    newClient := fun addrs =>
      if addrs.all fun a => (urlParse parseHostUnchecked (trimRightSlash a)).isOk then .ok ⟨1⟩
      else .error (.lib "elasticsearch" (utf8 "cannot create client"))
    getFormatter := fun name => if name = utf8 "plain" then some (some plainFormatter) else none
    doIndex := fun _ c => match c with
      | some _ => .returned none
      | none => .panicked
    oldStyleFormat := fun lm => lm.Msg }

/-- The exits the error taxonomy calls a validation error: the connection
string is empty, does not parse, or has no path. -/
def InitExit.isValidation : InitExit → Bool
  | .emptyDsn => true
  | .urlError _ => true
  | .missingPrefixErr => true
  | _ => false

/-- Whether `getScheme` finds a scheme in a raw URL. -/
def hasScheme (raw : GoString) : Bool :=
  match getScheme raw with
  | .ok (scheme, _) => !scheme.isEmpty
  | .error _ => false

/-! ## Lemmas on the UTF-8 and JSON model -/

theorem isCont_iff (b : Nat) : isCont b = true ↔ 0x80 ≤ b ∧ b ≤ 0xBF := by
  simp [isCont]

/-- Two-byte encodings. -/
theorem encodeRune_two (r : Nat) (h1 : 0x80 ≤ r) (h2 : r < 0x800) :
    encodeRune r = [0xC0 + r / 64, 0x80 + r % 64] := by
  unfold encodeRune utf8EncodeRune
  split_ifs <;> first | rfl | (exfalso; omega)

/-- Three-byte encodings, surrogates apart. -/
theorem encodeRune_three (r : Nat) (h1 : 0x800 ≤ r) (h2 : r < 0x10000)
    (h3 : r < 0xD800 ∨ 0xE000 ≤ r) :
    encodeRune r = [0xE0 + r / 4096, 0x80 + r / 64 % 64, 0x80 + r % 64] := by
  unfold encodeRune utf8EncodeRune
  split_ifs <;> first | rfl | (exfalso; omega)

/-- Four-byte encodings. -/
theorem encodeRune_four (r : Nat) (h1 : 0x10000 ≤ r) (h2 : r ≤ 0x10FFFF) :
    encodeRune r =
      [0xF0 + r / 262144, 0x80 + r / 4096 % 64, 0x80 + r / 64 % 64, 0x80 + r % 64] := by
  unfold encodeRune utf8EncodeRune
  split_ifs <;> first | rfl | (exfalso; omega)

/-- A well-formed multi-byte encoding at the head of a string: `decodeRune`
reads exactly those bytes, whatever follows, and `encodeRune` writes them
back. -/
theorem decodeRune_wellformed (b : Nat) (rest : GoString) (hb : 0x80 ≤ b)
    (hv : ¬ ((decodeRune (b :: rest)).1 = RuneError ∧ (decodeRune (b :: rest)).2 = 1)) :
    ∃ seq tail, b :: rest = b :: seq ++ tail ∧
      (b :: seq).length = (decodeRune (b :: rest)).2 ∧
      encodeRune (decodeRune (b :: rest)).1 = b :: seq ∧
      (∀ t, decodeRune (b :: seq ++ t) = decodeRune (b :: rest)) := by
  have hb' : ¬ b < 0x80 := by omega
  by_cases h1 : b < 0xC2
  · exact absurd (by simp [decodeRune, hb', h1]) hv
  by_cases h2 : b < 0xE0
  · cases rest with
    | nil => exact absurd (by simp [decodeRune, hb', h1, h2]) hv
    | cons b1 r =>
      by_cases hc : isCont b1 = true
      · refine ⟨[b1], r, rfl, ?_, ?_, ?_⟩
        · simp [decodeRune, hb', h1, h2, hc]
        · have hd : decodeRune (b :: b1 :: r) = (b % 32 * 64 + b1 % 64, 2) := by
            simp [decodeRune, hb', h1, h2, hc]
          rw [isCont_iff] at hc
          rw [hd, encodeRune_two _ (by omega) (by omega)]
          simp only [List.cons.injEq, and_true]
          omega
        · intro t
          simp [decodeRune, hb', h1, h2, hc]
      · exact absurd (by simp [decodeRune, hb', h1, h2, hc]) hv
  by_cases h3 : b < 0xF0
  · match rest with
    | [] => exact absurd (by simp [decodeRune, hb', h1, h2, h3]) hv
    | [_] => exact absurd (by simp [decodeRune, hb', h1, h2, h3]) hv
    | b1 :: b2 :: r =>
      by_cases hc : ((if b = 0xE0 then 0xA0 else 0x80) ≤ b1 ∧
          b1 ≤ (if b = 0xED then 0x9F else 0xBF)) ∧ isCont b2 = true
      · have hd : decodeRune (b :: b1 :: b2 :: r) =
            (b % 16 * 4096 + b1 % 64 * 64 + b2 % 64, 3) := by
          simp [decodeRune, hb', h1, h2, h3, hc]
        refine ⟨[b1, b2], r, rfl, ?_, ?_, ?_⟩
        · simp [hd]
        · rw [isCont_iff] at hc
          obtain ⟨⟨hlo, hhi⟩, hc2⟩ := hc
          have hlo' : 0x80 ≤ b1 ∧ (b = 0xE0 → 0xA0 ≤ b1) := by
            split_ifs at hlo <;> omega
          have hhi' : b1 ≤ 0xBF ∧ (b = 0xED → b1 ≤ 0x9F) := by
            split_ifs at hhi <;> omega
          rw [hd, encodeRune_three _ (by omega) (by omega) (by omega)]
          simp only [List.cons.injEq, and_true]
          omega
        · intro t
          simp [decodeRune, hb', h1, h2, h3, hc]
      · exact absurd (by simp [decodeRune, hb', h1, h2, h3, hc]) hv
  by_cases h4 : b < 0xF5
  · match rest with
    | [] => exact absurd (by simp [decodeRune, hb', h1, h2, h3, h4]) hv
    | [_] => exact absurd (by simp [decodeRune, hb', h1, h2, h3, h4]) hv
    | [_, _] => exact absurd (by simp [decodeRune, hb', h1, h2, h3, h4]) hv
    | b1 :: b2 :: b3 :: r =>
      by_cases hc : (((if b = 0xF0 then 0x90 else 0x80) ≤ b1 ∧
          b1 ≤ (if b = 0xF4 then 0x8F else 0xBF)) ∧ isCont b2 = true) ∧ isCont b3 = true
      · have hd : decodeRune (b :: b1 :: b2 :: b3 :: r) =
            (b % 8 * 262144 + b1 % 64 * 4096 + b2 % 64 * 64 + b3 % 64, 4) := by
          simp [decodeRune, hb', h1, h2, h3, h4, hc]
        refine ⟨[b1, b2, b3], r, rfl, ?_, ?_, ?_⟩
        · simp [hd]
        · simp only [isCont_iff] at hc
          obtain ⟨⟨⟨hlo, hhi⟩, hc2⟩, hc3⟩ := hc
          have hlo' : 0x80 ≤ b1 ∧ (b = 0xF0 → 0x90 ≤ b1) := by
            split_ifs at hlo <;> omega
          have hhi' : b1 ≤ 0xBF ∧ (b = 0xF4 → b1 ≤ 0x8F) := by
            split_ifs at hhi <;> omega
          rw [hd, encodeRune_four _ (by omega) (by omega)]
          simp only [List.cons.injEq, and_true]
          omega
        · intro t
          simp [decodeRune, hb', h1, h2, h3, h4, hc]
      · exact absurd (by simp [decodeRune, hb', h1, h2, h3, h4, hc]) hv
  · exact absurd (by simp [decodeRune, hb', h1, h2, h3, h4]) hv

/-- A written hexadecimal digit reads back as its value. -/
theorem unhex_hexDigit (n : Nat) (h : n < 16) : unhex (hexDigit n) = some n := by
  interval_cases n <;> rfl

/-- One-byte encodings. -/
theorem encodeRune_ascii (b : Nat) (hb : b < 0x80) : encodeRune b = [b] := by
  unfold encodeRune utf8EncodeRune
  split_ifs <;> first | rfl | (exfalso; omega)

/-- An escape that is no surrogate stands for its own value. -/
theorem escapedRune_plain (rr : Nat) (rest : GoString) (h : rr < 0xD800 ∨ 0xE000 ≤ rr) :
    escapedRune rr rest = (rr, rest) := by
  unfold escapedRune
  rw [if_neg (by omega)]

/-- Four written hexadecimal digits read back as their value. -/
theorem getu4_hex (a b c d : Nat) (ha : a < 16) (hb : b < 16) (hc : c < 16) (hd : d < 16)
    (rest : GoString) :
    getu4 (hexDigit a :: hexDigit b :: hexDigit c :: hexDigit d :: rest) =
      some (((a * 16 + b) * 16 + c) * 16 + d, rest) := by
  simp [getu4, unhex_hexDigit, ha, hb, hc, hd]

/-- Reading back the escape written for a rune below U+D800 or above U+DFFF
and at most U+FFFF. -/
theorem scanString_u_escape (r : Nat) (hr : r < 0x10000) (hs : r < 0xD800 ∨ 0xE000 ≤ r)
    (fuel : Nat) (rest : GoString) :
    scanString (fuel + 1)
        (0x5C :: 0x75 :: hexDigit (r / 4096) :: hexDigit (r / 256 % 16) ::
          hexDigit (r / 16 % 16) :: hexDigit (r % 16) :: rest) =
      prepend (encodeRune r) (scanString fuel rest) := by
  have hv : ((r / 4096 * 16 + r / 256 % 16) * 16 + r / 16 % 16) * 16 + r % 16 = r := by omega
  simp only [scanString]
  rw [getu4_hex _ _ _ _ (by omega) (by omega) (by omega) (by omega)]
  simp [hv, escapedRune_plain r rest hs]

/-- Reading back what the encoder wrote for one ASCII byte. -/
theorem scanString_encodeASCII (b : Nat) (hb : b < 0x80) (fuel : Nat) (rest : GoString) :
    scanString (fuel + 1) (encodeASCII b ++ rest) = prepend [b] (scanString fuel rest) := by
  unfold encodeASCII
  split_ifs with h1 h2 h3 h4 h5
  · rcases h1 with rfl | rfl <;> simp [scanString, simpleEscape]
  · subst h2; simp [scanString, simpleEscape]
  · subst h3; simp [scanString, simpleEscape]
  · subst h4; simp [scanString, simpleEscape]
  · have e0 : (0x30 : Nat) = hexDigit (b / 4096) := by
      have : b / 4096 = 0 := by omega
      rw [this]; rfl
    have e1 : (0x30 : Nat) = hexDigit (b / 256 % 16) := by
      have : b / 256 % 16 = 0 := by omega
      rw [this]; rfl
    have e2 : b / 16 = b / 16 % 16 := by omega
    have key := scanString_u_escape b (by omega) (by omega) fuel rest
    rw [← e0, ← e1, ← e2, encodeRune_ascii b hb] at key
    simpa using key
  · have h6 : ¬ b = 0x22 := by omega
    have h7 : ¬ b = 0x5C := by omega
    have h8 : ¬ b < 0x20 := by omega
    simp [scanString, h6, h7, h8, hb]

/-- The encoder writes at least one byte for an ASCII byte. -/
theorem encodeASCII_length_pos (b : Nat) : 0 < (encodeASCII b).length := by
  unfold encodeASCII
  split_ifs <;> simp

/-- An ASCII byte is a rune of its own. -/
theorem decodeRune_ascii (b : Nat) (rest : GoString) (hb : b < 0x80) :
    decodeRune (b :: rest) = (b, 1) := by
  simp [decodeRune, hb]

/-- The step of `scanString` at a byte that is not ASCII. -/
theorem scanString_multibyte (b : Nat) (l : GoString) (fuel : Nat) (hb : 0x80 ≤ b) :
    scanString (fuel + 1) (b :: l) =
      prepend (encodeRune (decodeRune (b :: l)).1)
        (scanString fuel ((b :: l).drop (decodeRune (b :: l)).2)) := by
  have h6 : ¬ b = 0x22 := by omega
  have h7 : ¬ b = 0x5C := by omega
  have h8 : ¬ b < 0x20 := by omega
  have h9 : ¬ b < 0x80 := by omega
  simp only [scanString, h6, h7, h8, h9, if_false]

/-- Reading back what the encoder wrote for a well-formed UTF-8 string gives
the string, and stops after the closing quote. -/
theorem scanString_encodeStringAux (n : Nat) : ∀ (s rest : GoString) (fv fe fs : Nat),
    s.length ≤ n → s.length ≤ fv → s.length ≤ fe →
    (encodeStringAux fe s).length < fs →
    validStringAux fv s = true →
    scanString fs (encodeStringAux fe s ++ 0x22 :: rest) = some (s, rest) := by
  induction n with
  | zero =>
    intro s rest fv fe fs hn _ _ hfs _
    have hs : s = [] := List.length_eq_zero.mp (by omega)
    subst hs
    obtain ⟨fs', rfl⟩ : ∃ k, fs = k + 1 := ⟨fs - 1, by omega⟩
    cases fe <;> simp [encodeStringAux, scanString]
  | succ n ih =>
    intro s rest fv fe fs hn hfv hfe hfs hv
    cases s with
    | nil =>
      obtain ⟨fs', rfl⟩ : ∃ k, fs = k + 1 := ⟨fs - 1, by omega⟩
      cases fe <;> simp [encodeStringAux, scanString]
    | cons b s' =>
      simp only [List.length_cons] at hn hfv hfe
      obtain ⟨fv', rfl⟩ : ∃ k, fv = k + 1 := ⟨fv - 1, by omega⟩
      obtain ⟨fe', rfl⟩ : ∃ k, fe = k + 1 := ⟨fe - 1, by omega⟩
      obtain ⟨fs', rfl⟩ : ∃ k, fs = k + 1 := ⟨fs - 1, by omega⟩
      by_cases hb : b < 0x80
      · have hd := decodeRune_ascii b s' hb
        have hne : ¬ (b = RuneError ∧ True) := by
          simp only [RuneError]; omega
        simp only [validStringAux, hd, List.drop_succ_cons, List.drop_zero] at hv
        have hv' : validStringAux fv' s' = true := by
          by_cases hbad : b = RuneError
          · simp only [RuneError] at hbad; omega
          · simpa [hbad] using hv
        have henc : encodeStringAux (fe' + 1) (b :: s') =
            encodeASCII b ++ encodeStringAux fe' s' := by
          simp [encodeStringAux, hb]
        rw [henc] at hfs ⊢
        have hpos := encodeASCII_length_pos b
        simp only [List.length_append] at hfs
        rw [List.append_assoc, scanString_encodeASCII b hb,
          ih s' rest fv' fe' fs' (by omega) (by omega) (by omega) (by omega) hv']
        rfl
      · have hb' : 0x80 ≤ b := by omega
        have hvalid : ¬ ((decodeRune (b :: s')).1 = RuneError ∧ (decodeRune (b :: s')).2 = 1) := by
          intro hbad
          simp [validStringAux, hbad] at hv
        obtain ⟨seq, tail, hsplit, hlen, henc, hdec⟩ := decodeRune_wellformed b s' hb' hvalid
        have hdrop : (b :: s').drop (decodeRune (b :: s')).2 = tail := by
          rw [← hlen, hsplit]; exact List.drop_left' rfl
        have htake : (b :: s').take (decodeRune (b :: s')).2 = b :: seq := by
          rw [← hlen, hsplit]; exact List.take_left' rfl
        have hv' : validStringAux fv' tail = true := by
          simp only [validStringAux, hvalid, if_false, hdrop] at hv
          exact hv
        have hs' : s' = seq ++ tail := by
          simpa using hsplit
        have htl : tail.length ≤ s'.length := by
          rw [hs']; simp
        have hscan : ∀ X fuel, scanString (fuel + 1) ((b :: seq) ++ X) =
            prepend (b :: seq) (scanString fuel X) := by
          intro X fuel
          have hdrop' : (b :: seq ++ X).drop (decodeRune (b :: s')).2 = X := by
            rw [← hlen]; exact List.drop_left' rfl
          rw [List.cons_append, scanString_multibyte b (seq ++ X) fuel hb', ← List.cons_append,
            hdec X, henc, hdrop']
        by_cases h28 : (decodeRune (b :: s')).1 = 0x2028
        · have hE : encodeStringAux (fe' + 1) (b :: s') =
              utf8 "\\u2028" ++ encodeStringAux fe' tail := by
            simp only [encodeStringAux, if_neg hb, if_neg hvalid, if_pos h28, hdrop]
          rw [hE] at hfs ⊢
          have hl : (utf8 "\\u2028").length = 6 := by decide
          simp only [List.length_append, hl] at hfs
          have key := scanString_u_escape 0x2028 (by omega) (by omega) fs'
            (encodeStringAux fe' tail ++ 0x22 :: rest)
          rw [← h28, henc] at key
          rw [List.append_assoc]
          refine Eq.trans ?_ (Eq.trans key ?_)
          · rw [h28]; rfl
          · rw [ih tail rest fv' fe' fs' (by omega) (by omega) (by omega) (by omega) hv', hs']
            rfl
        · by_cases h29 : (decodeRune (b :: s')).1 = 0x2029
          · have hE : encodeStringAux (fe' + 1) (b :: s') =
                utf8 "\\u2029" ++ encodeStringAux fe' tail := by
              simp only [encodeStringAux, if_neg hb, if_neg hvalid, if_neg h28, if_pos h29, hdrop]
            rw [hE] at hfs ⊢
            have hl : (utf8 "\\u2029").length = 6 := by decide
            simp only [List.length_append, hl] at hfs
            have key := scanString_u_escape 0x2029 (by omega) (by omega) fs'
              (encodeStringAux fe' tail ++ 0x22 :: rest)
            rw [← h29, henc] at key
            rw [List.append_assoc]
            refine Eq.trans ?_ (Eq.trans key ?_)
            · rw [h29]; rfl
            · rw [ih tail rest fv' fe' fs' (by omega) (by omega) (by omega) (by omega) hv', hs']
              rfl
          · have hE : encodeStringAux (fe' + 1) (b :: s') =
                (b :: seq) ++ encodeStringAux fe' tail := by
              simp only [encodeStringAux, if_neg hb, if_neg hvalid, if_neg h28, if_neg h29, hdrop, htake]
            rw [hE] at hfs ⊢
            simp only [List.length_append, List.length_cons] at hfs
            rw [List.append_assoc, hscan,
              ih tail rest fv' fe' fs' (by omega) (by omega) (by omega) (by omega) hv', hs']
            rfl

/-- A string literal for a well-formed UTF-8 string parses to that string. -/
theorem scanString_encodeString (s rest : GoString) (fs : Nat) (hv : ValidString s = true)
    (hfs : (encodeStringAux s.length s).length < fs) :
    scanString fs (encodeStringAux s.length s ++ 0x22 :: rest) = some (s, rest) :=
  scanString_encodeStringAux s.length s rest s.length s.length fs le_rfl le_rfl le_rfl hfs hv

/-- Nothing is skipped in front of a byte that is no white space. -/
theorem skipSpace_nonspace (b : Nat) (r : GoString) (h : isSpace b = false) :
    skipSpace (b :: r) = b :: r := by
  simp [skipSpace, h]

/-- A string literal of well-formed UTF-8 parses as a string value. -/
theorem parseValue_string (fuel : Nat) (s rest : GoString) (hv : ValidString s = true) :
    parseValue (fuel + 1) (0x22 :: (encodeStringAux s.length s ++ 0x22 :: rest)) =
      some (.string s, rest) := by
  rw [parseValue]
  simp only [show ¬ ((0x22 : Nat) = 0x7B) by decide, show ¬ ((0x22 : Nat) = 0x5B) by decide,
    if_false, if_true]
  rw [scanString_encodeString s rest _ hv (by simp; omega)]


/-- A string of ASCII bytes is well-formed UTF-8. -/
theorem validStringAux_ascii : ∀ (s : GoString) (fuel : Nat), s.length ≤ fuel →
    (∀ b ∈ s, b < 0x80) → validStringAux fuel s = true
  | [], fuel, _, _ => by cases fuel <;> rfl
  | b :: s', fuel, hf, ha => by
    simp only [List.length_cons] at hf
    obtain ⟨g, rfl⟩ : ∃ k, fuel = k + 1 := ⟨fuel - 1, by omega⟩
    have hb : b < 0x80 := ha b (List.mem_cons_self _ _)
    have hne : ¬ b = RuneError := by simp only [RuneError]; omega
    simp only [validStringAux, decodeRune_ascii b s' hb, hne, false_and, if_false,
      List.drop_succ_cons, List.drop_zero]
    exact validStringAux_ascii s' g (by omega) (fun c hc => ha c (List.mem_cons_of_mem _ hc))

/-- A string of ASCII bytes passes `utf8.ValidString`. -/
theorem ValidString_ascii (s : GoString) (ha : ∀ b ∈ s, b < 0x80) : ValidString s = true :=
  validStringAux_ascii s s.length le_rfl ha

/-- Decimal digits are ASCII. -/
theorem decimalAux_ascii : ∀ (fuel n : Nat) (acc : GoString), (∀ b ∈ acc, b < 0x80) →
    ∀ b ∈ decimalAux fuel n acc, b < 0x80
  | 0, _, acc, ha => by simpa [decimalAux] using ha
  | fuel + 1, n, acc, ha => by
    unfold decimalAux
    split_ifs with h
    · intro b hb
      rcases List.mem_cons.mp hb with rfl | hb
      · omega
      · exact ha b hb
    · apply decimalAux_ascii fuel
      intro b hb
      rcases List.mem_cons.mp hb with rfl | hb
      · omega
      · exact ha b hb

/-- What `appendInt` writes is ASCII. -/
theorem appendInt_ascii (x : Int) (w : Nat) : ∀ b ∈ appendInt x w, b < 0x80 := by
  intro b hb
  simp only [appendInt, List.mem_append, List.mem_replicate] at hb
  rcases hb with (hb | hb) | hb
  · split_ifs at hb <;> simp at hb
    omega
  · omega
  · exact decimalAux_ascii _ _ [] (by simp) b hb

/-- A formatted zone is ASCII. -/
theorem formatZone_ascii (o : Int) : ∀ b ∈ formatZone o, b < 0x80 := by
  intro b hb
  unfold formatZone at hb
  split_ifs at hb with h
  · simp at hb; omega
  · simp only [List.mem_append, List.mem_singleton] at hb
    rcases hb with ((hb | hb) | hb) | hb
    · split_ifs at hb <;> omega
    · exact appendInt_ascii _ _ b hb
    · omega
    · exact appendInt_ascii _ _ b hb

/-- An RFC 3339 timestamp is ASCII, hence well-formed UTF-8. -/
theorem timeFormatRFC3339_valid (t : Time) : ValidString (timeFormatRFC3339 t) = true := by
  apply ValidString_ascii
  intro b hb
  simp only [timeFormatRFC3339, List.mem_append, List.mem_singleton] at hb
  rcases hb with ((((((((((hb | hb) | hb) | hb) | hb) | hb) | hb) | hb) | hb) | hb) | hb) | hb
  all_goals first
    | exact appendInt_ascii _ _ b hb
    | exact formatZone_ascii _ b hb
    | omega

/-- The bytes `json.Marshal` writes for a `LogDocument`, laid out. -/
theorem marshalLogDocument_eq (d : LogDocument) :
    marshalLogDocument d =
      0x7B :: 0x22 :: (utf8 "timestamp" ++ 0x22 :: 0x3A :: 0x22 ::
        (encodeStringAux d.Timestamp.length d.Timestamp ++ 0x22 :: 0x2C :: 0x22 ::
          (utf8 "msg" ++ 0x22 :: 0x3A :: 0x22 ::
            (encodeStringAux d.Msg.length d.Msg ++ 0x22 :: [0x7D])))) := by
  simp only [marshalLogDocument, encodeString, List.append_assoc, List.cons_append,
    List.nil_append]
  rfl


/-- One member whose value is a string, as the encoder writes it: the key,
the value, and the members that follow. -/
theorem parseMembers_string (fuel : Nat) (key v rest : GoString)
    (hk : ValidString key = true) (hv : ValidString v = true) :
    parseMembers (fuel + 2)
        (0x22 :: (encodeStringAux key.length key ++ 0x22 :: 0x3A :: 0x22 ::
          (encodeStringAux v.length v ++ 0x22 :: rest))) =
      match skipSpace rest with
      | 0x7D :: out => some ([(key, JVal.string v)], out)
      | 0x2C :: r4 =>
        match parseMembers (fuel + 1) (skipSpace r4) with
        | none => none
        | some (ms, out) => some ((key, JVal.string v) :: ms, out)
      | _ => none := by
  rw [parseMembers]
  rw [scanString_encodeString key _ _ hk (by simp; omega)]
  simp only [skipSpace_nonspace 0x3A _ (by decide), skipSpace_nonspace 0x22 _ (by decide)]
  rw [parseValue_string fuel v rest hv]

/-- What `json.Marshal` wrote for a document of well-formed UTF-8 strings
parses as an object with the two members. -/
theorem parseJSON_marshalLogDocument (d : LogDocument)
    (ht : ValidString d.Timestamp = true) (hm : ValidString d.Msg = true) :
    parseJSON (marshalLogDocument d) =
      some (.object [(utf8 "timestamp", .string d.Timestamp), (utf8 "msg", .string d.Msg)]) := by
  have hk1 : encodeStringAux (utf8 "timestamp").length (utf8 "timestamp") = utf8 "timestamp" := by
    decide
  have hk2 : encodeStringAux (utf8 "msg").length (utf8 "msg") = utf8 "msg" := by decide
  have hv1 : ValidString (utf8 "timestamp") = true := by decide
  have hv2 : ValidString (utf8 "msg") = true := by decide
  have m1 : ∀ k, parseMembers (k + 3) (0x22 :: (utf8 "timestamp" ++ 0x22 :: 0x3A :: 0x22 ::
        (encodeStringAux d.Timestamp.length d.Timestamp ++ 0x22 :: 0x2C :: 0x22 ::
          (utf8 "msg" ++ 0x22 :: 0x3A :: 0x22 ::
            (encodeStringAux d.Msg.length d.Msg ++ 0x22 :: [0x7D]))))) =
      some ([(utf8 "timestamp", .string d.Timestamp), (utf8 "msg", .string d.Msg)], []) := by
    intro k
    have h := parseMembers_string (k + 1) (utf8 "timestamp") d.Timestamp
      (0x2C :: 0x22 :: (utf8 "msg" ++ 0x22 :: 0x3A :: 0x22 ::
            (encodeStringAux d.Msg.length d.Msg ++ 0x22 :: [0x7D]))) hv1 ht
    rw [hk1] at h
    rw [h]
    simp only [skipSpace_nonspace 0x2C _ (by decide), skipSpace_nonspace 0x22 _ (by decide)]
    have m2' := parseMembers_string k (utf8 "msg") d.Msg [0x7D] hv2 hm
    rw [hk2] at m2'
    rw [m2']
    simp [skipSpace_nonspace 0x7D _ (by decide)]
  have pv : ∀ n, 4 ≤ n → parseValue n (0x7B :: 0x22 :: (utf8 "timestamp" ++ 0x22 :: 0x3A :: 0x22 ::
        (encodeStringAux d.Timestamp.length d.Timestamp ++ 0x22 :: 0x2C :: 0x22 ::
          (utf8 "msg" ++ 0x22 :: 0x3A :: 0x22 ::
            (encodeStringAux d.Msg.length d.Msg ++ 0x22 :: [0x7D]))))) =
      some (.object [(utf8 "timestamp", .string d.Timestamp), (utf8 "msg", .string d.Msg)],
        []) := by
    intro n hn
    obtain ⟨k, rfl⟩ : ∃ k, n = (k + 3) + 1 := ⟨n - 4, by omega⟩
    rw [parseValue]
    simp only [if_true]
    rw [skipSpace_nonspace 0x22 _ (by decide)]
    simp only [m1 k]
  rw [marshalLogDocument_eq]
  unfold parseJSON
  rw [skipSpace_nonspace 0x7B _ (by decide), pv]
  · rfl
  · simp only [List.length_cons, List.length_append]; omega

/-- Decoding what `json.Marshal` wrote for a document of well-formed UTF-8
strings gives the document back. -/
theorem jsonUnmarshalLogDocument_marshal (d d0 : LogDocument)
    (ht : ValidString d.Timestamp = true) (hm : ValidString d.Msg = true) :
    jsonUnmarshalLogDocument (marshalLogDocument d) d0 = (none, d) := by
  unfold jsonUnmarshalLogDocument
  rw [parseJSON_marshalLogDocument d ht hm]
  have h2 : ¬ foldName (utf8 "msg") = foldName (utf8 "timestamp") := by decide
  simp [decodeLogDocumentMembers, h2]

/-! ## Lemmas on the decoding of a configuration -/

/-- The client after decoding one member: the one before, unless the key
makes the decoder walk into the embedded client, which it then allocates if
there is none. -/
theorem decodeEsLoggerMember_Client (p : Promoted) (key : GoString) (v : JVal) (x : Exported)
    (saved : Option GoError) :
    (decodeEsLoggerMember p key v x saved).2.Client =
      if isPromotedKey p key then some (x.Client.getD zeroClient) else x.Client := by
  by_cases h1 : foldName key = foldName (utf8 "dsn")
  · have hk : isPromotedKey p key = false := by simp [isPromotedKey, isOwnKey, h1]
    rw [hk]
    unfold decodeEsLoggerMember
    rw [if_pos h1]
    cases v <;> simp
  · by_cases h2 : foldName key = foldName (utf8 "level")
    · have hk : isPromotedKey p key = false := by simp [isPromotedKey, isOwnKey, h2]
      rw [hk]
      unfold decodeEsLoggerMember
      rw [if_neg h1, if_pos h2]
      cases v with
      | number lit => cases hpi : parseInt64 lit <;> simp [hpi]
      | _ => simp
    · by_cases h3 : foldName key = foldName (utf8 "formatter")
      · have hk : isPromotedKey p key = false := by simp [isPromotedKey, isOwnKey, h3]
        rw [hk]
        unfold decodeEsLoggerMember
        rw [if_neg h1, if_neg h2, if_pos h3]
        cases v <;> simp
      · cases hp : p key with
        | none =>
          have hk : isPromotedKey p key = false := by simp [isPromotedKey, hp]
          rw [hk]
          unfold decodeEsLoggerMember
          rw [if_neg h1, if_neg h2, if_neg h3, hp]
          simp
        | some accepts =>
          have hk : isPromotedKey p key = true := by
            simp [isPromotedKey, isOwnKey, h1, h2, h3, hp]
          rw [hk]
          unfold decodeEsLoggerMember
          rw [if_neg h1, if_neg h2, if_neg h3, hp]
          simp

/-- The formatter name after decoding one member whose key is not
`formatter`: the one before. -/
theorem decodeEsLoggerMember_Formatter (p : Promoted) (key : GoString) (v : JVal)
    (x : Exported) (saved : Option GoError)
    (h3 : ¬ foldName key = foldName (utf8 "formatter")) :
    (decodeEsLoggerMember p key v x saved).2.Formatter = x.Formatter := by
  unfold decodeEsLoggerMember
  by_cases h1 : foldName key = foldName (utf8 "dsn")
  · rw [if_pos h1]
    cases v <;> simp
  · by_cases h2 : foldName key = foldName (utf8 "level")
    · rw [if_neg h1, if_pos h2]
      cases v with
      | number lit => cases hpi : parseInt64 lit <;> simp only [hpi]
      | _ => simp
    · rw [if_neg h1, if_neg h2, if_neg h3]
      cases p key <;> simp

/-- The client after decoding: the one before, unless a key makes the decoder
walk into the embedded client, which it then allocates if there is none. -/
theorem decodeEsLoggerMembers_Client (p : Promoted) :
    ∀ (ms : List (GoString × JVal)) (x : Exported) (saved : Option GoError),
      (decodeEsLoggerMembers p ms x saved).2.Client =
        if ms.any (fun m => isPromotedKey p m.1) then some (x.Client.getD zeroClient)
        else x.Client
  | [], x, saved => by simp [decodeEsLoggerMembers]
  | (key, v) :: ms, x, saved => by
    rw [decodeEsLoggerMembers, decodeEsLoggerMembers_Client p ms,
      decodeEsLoggerMember_Client]
    simp only [List.any_cons]
    by_cases hk : isPromotedKey p key = true
    · simp only [hk, Bool.true_or, if_true, Option.getD_some]
      split_ifs <;> rfl
    · have hk2 : isPromotedKey p key = false := by simpa using hk
      simp only [hk2, Bool.false_or, Bool.false_eq_true, if_false]

/-- The formatter name after decoding an object without the key `formatter`:
the one before. -/
theorem decodeEsLoggerMembers_Formatter (p : Promoted) :
    ∀ (ms : List (GoString × JVal)) (x : Exported) (saved : Option GoError),
      ms.any (fun m => decide (foldName m.1 = foldName (utf8 "formatter"))) = false →
      (decodeEsLoggerMembers p ms x saved).2.Formatter = x.Formatter
  | [], x, saved, _ => by simp [decodeEsLoggerMembers]
  | (key, v) :: ms, x, saved, h => by
    simp only [List.any_cons, Bool.or_eq_false_iff, decide_eq_false_iff_not] at h
    obtain ⟨h3, hms⟩ := h
    rw [decodeEsLoggerMembers, decodeEsLoggerMembers_Formatter p ms _ _ hms,
      decodeEsLoggerMember_Formatter p key v x saved h3]

/-- The client `json.Unmarshal` leaves in the adapter. -/
theorem jsonUnmarshalEsLogger_Client (p : Promoted) (data : GoString) (x : Exported) :
    (jsonUnmarshalEsLogger p data x).2.Client =
      if namesPromoted p data then some (x.Client.getD zeroClient) else x.Client := by
  unfold jsonUnmarshalEsLogger namesPromoted
  cases parseJSON data with
  | none => simp
  | some v =>
    cases v with
    | object ms => exact decodeEsLoggerMembers_Client p ms x none
    | _ => simp

/-- The formatter name `json.Unmarshal` leaves in the adapter when the text
has no key `formatter`. -/
theorem jsonUnmarshalEsLogger_Formatter (p : Promoted) (data : GoString) (x : Exported)
    (h : namesFormatter data = false) :
    (jsonUnmarshalEsLogger p data x).2.Formatter = x.Formatter := by
  unfold jsonUnmarshalEsLogger
  unfold namesFormatter at h
  cases hj : parseJSON data with
  | none => simp
  | some v =>
    rw [hj] at h
    cases v with
    | object ms => exact decodeEsLoggerMembers_Formatter p ms x none h
    | _ => simp

/-! ## Lemmas on `Init` -/

/-- `Init` ends in a validation error exactly when the decoded `DSN` is empty,
does not parse, or parses with an empty path. -/
theorem Init_isValidation_iff (env : Env) (config : GoString) (el : esLogger) (x : Exported)
    (hu : env.jsonUnmarshal config el.exported = (none, x)) :
    (Init env config el).exit.isValidation = true ↔
      (x.DSN = [] ∨ (∃ e, env.urlParse x.DSN = .error e) ∨
        (∃ u, env.urlParse x.DSN = .ok u ∧ u.Path = [])) := by
  simp only [Init, hu, esLogger.withExported]
  by_cases hd : x.DSN = []
  · simp [hd, InitExit.isValidation]
  · rcases hp : env.urlParse x.DSN with e | u
    · simp [hd, InitExit.isValidation]
    · by_cases hpath : u.Path = []
      · simp [hd, hpath, InitExit.isValidation]
      · rcases hc : env.newClient [x.DSN] with e | conn
        · simp [hd, hpath, InitExit.isValidation]
        · by_cases hl : x.Formatter.length > 0
          · rcases hg : env.getFormatter x.Formatter with _ | fmtr <;>
              simp [hd, hpath, hl, InitExit.isValidation]
          · simp [hd, hpath, hl, InitExit.isValidation]

/-- An `Init` that ends in a validation error has made no call to client
construction and leaves the adapter as the decoder left it; any other `Init`
whose decoding succeeded has called client construction on `[DSN]`. -/
theorem Init_validation_trace (env : Env) (config : GoString) (el : esLogger) (x : Exported)
    (hu : env.jsonUnmarshal config el.exported = (none, x)) :
    ((Init env config el).exit.isValidation = true →
      (Init env config el).el = el.withExported x ∧
      ∀ addrs, Event.newClient addrs ∉ (Init env config el).trace) ∧
    ((Init env config el).exit.isValidation = false →
      Event.newClient [x.DSN] ∈ (Init env config el).trace) := by
  simp only [Init, hu, esLogger.withExported]
  by_cases hd : x.DSN = []
  · simp [hd, InitExit.isValidation]
  · rcases hp : env.urlParse x.DSN with e | u
    · simp [hd, InitExit.isValidation]
    · by_cases hpath : u.Path = []
      · simp [hd, hpath, InitExit.isValidation]
      · rcases hc : env.newClient [x.DSN] with e | conn
        · simp [hd, hpath, InitExit.isValidation]
        · by_cases hl : x.Formatter.length > 0
          · rcases hg : env.getFormatter x.Formatter with _ | fmtr <;>
              simp [hd, hpath, hl, InitExit.isValidation]
          · simp [hd, hpath, hl, InitExit.isValidation]

/-- What the decoder modelled here leaves in the adapter: its client, and its
formatter name when the text has no key `formatter`. -/
theorem unmarshal_leaves (env : Env) (config : GoString) (el : esLogger) (x : Exported)
    (err : Option GoError) (hu : env.jsonUnmarshal config el.exported = (err, x))
    (p : Promoted) (hp : env.jsonUnmarshal = jsonUnmarshalEsLogger p) :
    x.Client = (if namesPromoted p config then some (el.Client.getD zeroClient)
      else el.Client) ∧
    (namesFormatter config = false → x.Formatter = el.Formatter) := by
  rw [hp] at hu
  have hx : x = (jsonUnmarshalEsLogger p config el.exported).2 := by rw [hu]
  constructor
  · rw [hx, jsonUnmarshalEsLogger_Client]
    rfl
  · intro hf
    rw [hx, jsonUnmarshalEsLogger_Formatter p config el.exported hf]
    rfl

/-- An `Init` whose decoding succeeded and that ends in no validation error
has parsed `DSN` to a URL with a path. -/
theorem Init_validation_passed (env : Env) (config : GoString) (el : esLogger) (x : Exported)
    (hu : env.jsonUnmarshal config el.exported = (none, x))
    (hv : (Init env config el).exit.isValidation = false) :
    x.DSN ≠ [] ∧ ∃ u, env.urlParse x.DSN = .ok u ∧ u.Path ≠ [] := by
  have key := Init_isValidation_iff env config el x hu
  have hn : ¬ (x.DSN = [] ∨ (∃ e, env.urlParse x.DSN = .error e) ∨
      (∃ u, env.urlParse x.DSN = .ok u ∧ u.Path = [])) := by
    intro h
    rw [key.mpr h] at hv
    cases hv
  refine ⟨fun h => hn (Or.inl h), ?_⟩
  rcases hp : env.urlParse x.DSN with e | u
  · exact absurd (Or.inr (Or.inl ⟨e, hp⟩)) hn
  · exact ⟨u, rfl, fun h => hn (Or.inr (Or.inr ⟨u, hp, h⟩))⟩

/-! ## Theorems -/

/-- C1: a record whose level is above the adapter's `Level` makes `WriteMsg`
return nil with no outside call at all: no formatter call, no index-name call,
no index request. -/
theorem WriteMsg_above_level (env : Env) (el : esLogger) (lm : LogMsg)
    (h : lm.Level > el.Level) :
    (WriteMsg env el lm).result = .returned none ∧ (WriteMsg env el lm).trace = [] := by
  simp [WriteMsg, h]

/-- C1 at threshold 3 and record level 5. -/
theorem WriteMsg_above_level_witness :
    (5 : Int) > 3 ∧
    (WriteMsg (goEnv sampleHost) ⟨some ⟨1⟩, utf8 "http://localhost:9200/logs", 3, none, [], none⟩
        ⟨5, utf8 "boot complete", ⟨2020, 1, 2, 3, 4, 5, 6000000, 0⟩⟩).result = .returned none ∧
    (WriteMsg (goEnv sampleHost) ⟨some ⟨1⟩, utf8 "http://localhost:9200/logs", 3, none, [], none⟩
        ⟨5, utf8 "boot complete", ⟨2020, 1, 2, 3, 4, 5, 6000000, 0⟩⟩).trace = [] :=
  ⟨by decide, WriteMsg_above_level _ _ _ (by decide)⟩

/-- C2: on an adapter holding client `c` and formatter `f`, a record at or
below `Level` makes `WriteMsg` call the formatter once, compute the index name
once and issue one index request, of document type `logs` and with the
formatter's output as body, on `c`; what `WriteMsg` returns is what that one
request returned. -/
theorem WriteMsg_at_or_below_level (env : Env) (el : esLogger) (lm : LogMsg)
    (c : Client) (f : Formatter)
    (hc : el.Client = some c) (hf : el.formatter = some f) (h : lm.Level ≤ el.Level) :
    (WriteMsg env el lm).trace =
      [.format lm, .indexName lm,
       .indexRequest ⟨env.indexNaming.IndexName lm, utf8 "logs", f.Format lm⟩ (some c)] ∧
    (WriteMsg env el lm).result =
      env.doIndex ⟨env.indexNaming.IndexName lm, utf8 "logs", f.Format lm⟩ (some c) := by
  have h1 : ¬ lm.Level > el.Level := not_lt.mpr h
  simp [WriteMsg, h1, hf, hc]

/-- C2 at threshold 3 and record level 3. -/
theorem WriteMsg_at_or_below_level_witness :
    (WriteMsg (goEnv sampleHost)
        ⟨some ⟨1⟩, utf8 "http://localhost:9200/logs", 3, some plainFormatter, [], none⟩
        ⟨3, utf8 "boot complete", ⟨2020, 1, 2, 3, 4, 5, 6000000, 0⟩⟩).trace =
      [.format ⟨3, utf8 "boot complete", ⟨2020, 1, 2, 3, 4, 5, 6000000, 0⟩⟩,
       .indexName ⟨3, utf8 "boot complete", ⟨2020, 1, 2, 3, 4, 5, 6000000, 0⟩⟩,
       .indexRequest ⟨utf8 "2020.01.02", utf8 "logs", utf8 "boot complete"⟩ (some ⟨1⟩)] ∧
    (WriteMsg (goEnv sampleHost)
        ⟨some ⟨1⟩, utf8 "http://localhost:9200/logs", 3, some plainFormatter, [], none⟩
        ⟨3, utf8 "boot complete", ⟨2020, 1, 2, 3, 4, 5, 6000000, 0⟩⟩).result = .returned none :=
  WriteMsg_at_or_below_level (goEnv sampleHost)
    ⟨some ⟨1⟩, utf8 "http://localhost:9200/logs", 3, some plainFormatter, [], none⟩
    ⟨3, utf8 "boot complete", ⟨2020, 1, 2, 3, 4, 5, 6000000, 0⟩⟩ ⟨1⟩ plainFormatter rfl rfl (by decide)

/-- C4, as stated, fails: on a fresh adapter, which has no client, the blob
`{"dsn":"","Transport":null}` makes `Init` return `empty dsn` with a client in
the adapter, the empty one the decoder allocated for the key `Transport`. -/
theorem Init_empty_dsn_counterexample :
    (NewES (goEnv sampleHost)).Client = none ∧
    (Init (goEnv sampleHost) (utf8 "\x7b\"dsn\":\"\",\"Transport\":null\x7d")
        (NewES (goEnv sampleHost))).exit = .emptyDsn ∧
    (Init (goEnv sampleHost) (utf8 "\x7b\"dsn\":\"\",\"Transport\":null\x7d")
        (NewES (goEnv sampleHost))).el.Client = some zeroClient := by
  refine ⟨rfl, by decide, by decide⟩

/-- C4, amended: when the blob decodes without error and leaves `DSN` empty,
`Init` returns the error `empty dsn`, a validation error, whatever the other
fields are; it has made no call but the decoding, so it constructs no client,
and it stores none: the adapter is as the decoder left it.  Under
`encoding/json` that client is the one the adapter had, but for a blob with a
key naming a field promoted from the embedded client, where it is the one the
adapter had or else a newly allocated empty one. -/
theorem Init_empty_dsn (env : Env) (config : GoString) (el : esLogger) (x : Exported)
    (hu : env.jsonUnmarshal config el.exported = (none, x)) (hd : x.DSN = []) :
    (Init env config el).exit = .emptyDsn ∧
    (Init env config el).exit.err = some (.errorString (utf8 "empty dsn")) ∧
    (Init env config el).exit.isValidation = true ∧
    (Init env config el).trace = [.unmarshal config] ∧
    (Init env config el).el = el.withExported x ∧
    (∀ p : Promoted, env.jsonUnmarshal = jsonUnmarshalEsLogger p →
      (Init env config el).el.Client =
        if namesPromoted p config then some (el.Client.getD zeroClient) else el.Client) := by
  have h5 : (Init env config el).el = el.withExported x := by
    simp [Init, hu, esLogger.withExported, hd]
  refine ⟨?_, ?_, ?_, ?_, h5, ?_⟩
  · simp [Init, hu, esLogger.withExported, hd]
  · simp [Init, hu, esLogger.withExported, hd, InitExit.err]
  · simp [Init, hu, esLogger.withExported, hd, InitExit.isValidation]
  · simp [Init, hu, esLogger.withExported, hd]
  · intro p hp
    rw [h5]
    exact (unmarshal_leaves env config el x none hu p hp).1

/-- C4 amended, on a fresh adapter: a blob without `dsn` and without a
promoted key leaves no client; a blob whose `dsn` is the empty string. -/
theorem Init_empty_dsn_witness :
    ((Init (goEnv sampleHost) (utf8 "\x7b\"level\":1,\"formatter\":\"plain\"\x7d")
        (NewES (goEnv sampleHost))).exit = .emptyDsn ∧
      (Init (goEnv sampleHost) (utf8 "\x7b\"level\":1,\"formatter\":\"plain\"\x7d")
        (NewES (goEnv sampleHost))).el.Client = none) ∧
    (Init (goEnv sampleHost) (utf8 "\x7b\"dsn\":\"\"\x7d") (NewES (goEnv sampleHost))).exit
      = .emptyDsn :=
  ⟨⟨(Init_empty_dsn (goEnv sampleHost) (utf8 "\x7b\"level\":1,\"formatter\":\"plain\"\x7d")
        (NewES (goEnv sampleHost)) ⟨none, [], 1, utf8 "plain"⟩ (by decide) rfl).1,
    ((Init_empty_dsn (goEnv sampleHost) (utf8 "\x7b\"level\":1,\"formatter\":\"plain\"\x7d")
        (NewES (goEnv sampleHost)) ⟨none, [], 1, utf8 "plain"⟩ (by decide) rfl).2.2.2.2.2
        clientFields rfl).trans (by decide)⟩,
   (Init_empty_dsn (goEnv sampleHost) (utf8 "\x7b\"dsn\":\"\"\x7d")
        (NewES (goEnv sampleHost)) ⟨none, [], 7, []⟩ (by decide) rfl).1⟩

/-- C5, as stated, fails: on a fresh adapter, which has no client, the blob
`{"dsn":"http://localhost:9200","Transport":null}` makes `Init` return
`missing prefix` with a client in the adapter, the empty one the decoder
allocated for the key `Transport`. -/
theorem Init_empty_path_counterexample :
    (NewES (goEnv sampleHost)).Client = none ∧
    (Init (goEnv sampleHost)
        (utf8 "\x7b\"dsn\":\"http://localhost:9200\",\"Transport\":null\x7d")
        (NewES (goEnv sampleHost))).exit = .missingPrefixErr ∧
    (Init (goEnv sampleHost)
        (utf8 "\x7b\"dsn\":\"http://localhost:9200\",\"Transport\":null\x7d")
        (NewES (goEnv sampleHost))).el.Client = some zeroClient := by
  refine ⟨rfl, by decide, by decide⟩

/-- C5, amended: when the blob decodes without error to a non-empty `DSN` that
`url.Parse` accepts, an empty path makes `Init` return the error
`missing prefix`, a validation error, after the decoding and the parse only, so
it constructs no client, and it stores none: the adapter is as the decoder left
it, with the client it had or, for a blob with a key naming a field promoted
from the embedded client, else a newly allocated empty one.  The path `/` is
not rejected: `Init` goes on to client construction and does not end in a
validation error. -/
theorem Init_empty_path (env : Env) (config : GoString) (el : esLogger) (x : Exported)
    (u : URL) (hu : env.jsonUnmarshal config el.exported = (none, x)) (hne : x.DSN ≠ [])
    (hp : env.urlParse x.DSN = .ok u) :
    (u.Path = [] →
      (Init env config el).exit = .missingPrefixErr ∧
      (Init env config el).exit.err = some (.errorString (utf8 "missing prefix")) ∧
      (Init env config el).exit.isValidation = true ∧
      (Init env config el).trace = [.unmarshal config, .urlParse x.DSN] ∧
      (Init env config el).el = el.withExported x ∧
      (∀ p : Promoted, env.jsonUnmarshal = jsonUnmarshalEsLogger p →
        (Init env config el).el.Client =
          if namesPromoted p config then some (el.Client.getD zeroClient) else el.Client)) ∧
    (u.Path = utf8 "/" →
      (Init env config el).exit ≠ .missingPrefixErr ∧
      (Init env config el).exit.isValidation = false ∧
      Event.newClient [x.DSN] ∈ (Init env config el).trace) := by
  constructor
  · intro hpath
    have h5 : (Init env config el).el = el.withExported x := by
      simp [Init, hu, esLogger.withExported, hne, hp, hpath]
    refine ⟨?_, ?_, ?_, ?_, h5, ?_⟩
    · simp [Init, hu, esLogger.withExported, hne, hp, hpath]
    · simp [Init, hu, esLogger.withExported, hne, hp, hpath, InitExit.err]
    · simp [Init, hu, esLogger.withExported, hne, hp, hpath, InitExit.isValidation]
    · simp [Init, hu, esLogger.withExported, hne, hp, hpath]
    · intro p hpr
      rw [h5]
      exact (unmarshal_leaves env config el x none hu p hpr).1
  · intro hpath
    have hpath2 : u.Path ≠ [] := by rw [hpath]; decide
    simp only [Init, hu, esLogger.withExported, hne, hp, hpath2, if_false]
    cases env.newClient [x.DSN] with
    | error e => simp [InitExit.isValidation]
    | ok conn =>
      by_cases hf : x.Formatter.length > 0
      · cases hg : env.getFormatter x.Formatter <;> simp [hf, hg, InitExit.isValidation]
      · simp [hf, InitExit.isValidation]

/-- C5 amended, at `http://localhost:9200` (no path, no promoted key: no
client) and `http://localhost:9200/`. -/
theorem Init_empty_path_witness :
    ((Init (goEnv sampleHost) (utf8 "\x7b\"dsn\":\"http://localhost:9200\",\"level\":1\x7d")
        (NewES (goEnv sampleHost))).exit = .missingPrefixErr ∧
      (Init (goEnv sampleHost) (utf8 "\x7b\"dsn\":\"http://localhost:9200\",\"level\":1\x7d")
        (NewES (goEnv sampleHost))).el.Client = none) ∧
    (Init (goEnv sampleHost) (utf8 "\x7b\"dsn\":\"http://localhost:9200/\",\"level\":1\x7d")
        (NewES (goEnv sampleHost))).exit ≠ .missingPrefixErr :=
  ⟨⟨((Init_empty_path (goEnv sampleHost)
        (utf8 "\x7b\"dsn\":\"http://localhost:9200\",\"level\":1\x7d")
        (NewES (goEnv sampleHost)) ⟨none, utf8 "http://localhost:9200", 1, []⟩
        ⟨utf8 "http", [], utf8 "localhost:9200", [], [], []⟩
        (by decide) (by decide) rfl).1 rfl).1,
     (((Init_empty_path (goEnv sampleHost)
        (utf8 "\x7b\"dsn\":\"http://localhost:9200\",\"level\":1\x7d")
        (NewES (goEnv sampleHost)) ⟨none, utf8 "http://localhost:9200", 1, []⟩
        ⟨utf8 "http", [], utf8 "localhost:9200", [], [], []⟩
        (by decide) (by decide) rfl).1 rfl).2.2.2.2.2 clientFields rfl).trans (by decide)⟩,
   ((Init_empty_path (goEnv sampleHost)
        (utf8 "\x7b\"dsn\":\"http://localhost:9200/\",\"level\":1\x7d")
        (NewES (goEnv sampleHost)) ⟨none, utf8 "http://localhost:9200/", 1, []⟩
        ⟨utf8 "http", [], utf8 "localhost:9200", utf8 "/", [], []⟩
        (by decide) (by decide) rfl).2 rfl).1⟩

/-- C9, as stated, fails: an adapter keeps the formatter name an earlier `Init`
left, so a blob without the key `formatter` still leads to a lookup.  After an
`Init` that failed on the unregistered name `json`, the blob
`{"dsn":"http://localhost:9200/logs"}` looks `json` up again and fails; after
one that named `plain`, with the formatter then set to nil by `SetFormatter`,
the same blob installs the registered formatter. -/
theorem Init_formatter_counterexample :
    namesFormatter (utf8 "\x7b\"dsn\":\"http://localhost:9200/logs\"\x7d") = false ∧
    (Init (goEnv sampleHost) (utf8 "\x7b\"dsn\":\"http://localhost:9200/logs\"\x7d")
        (Init (goEnv sampleHost)
          (utf8 "\x7b\"dsn\":\"http://localhost:9200/logs\",\"formatter\":\"json\"\x7d")
          (NewES (goEnv sampleHost))).el).exit = .formatterNotFound (utf8 "json") ∧
    Event.getFormatter (utf8 "json") ∈
      (Init (goEnv sampleHost) (utf8 "\x7b\"dsn\":\"http://localhost:9200/logs\"\x7d")
        (Init (goEnv sampleHost)
          (utf8 "\x7b\"dsn\":\"http://localhost:9200/logs\",\"formatter\":\"json\"\x7d")
          (NewES (goEnv sampleHost))).el).trace ∧
    (SetFormatter (Init (goEnv sampleHost)
          (utf8 "\x7b\"dsn\":\"http://localhost:9200/logs\",\"formatter\":\"plain\"\x7d")
          (NewES (goEnv sampleHost))).el none).formatter.isSome = false ∧
    (Init (goEnv sampleHost) (utf8 "\x7b\"dsn\":\"http://localhost:9200/logs\"\x7d")
        (SetFormatter (Init (goEnv sampleHost)
          (utf8 "\x7b\"dsn\":\"http://localhost:9200/logs\",\"formatter\":\"plain\"\x7d")
          (NewES (goEnv sampleHost))).el none)).el.formatter.isSome = true := by
  refine ⟨by decide, by decide, by decide, rfl, by decide⟩

/-- C9, amended: let the blob decode without error to a `DSN` that passes
validation, and let client construction succeed.  With a non-empty `Formatter`
in the adapter after decoding: if the registry does not have the name, `Init`
returns the error `the formatter with name: NAME not found`; if it has, `Init`
succeeds and the registered formatter replaces the one `SetFormatter` had set.
With an empty `Formatter` after decoding, `Init` succeeds without a registry
lookup and the formatter set by `SetFormatter` stays.  Under `encoding/json` a
blob without the key `formatter` leaves `Formatter` as it was: empty on an
adapter that had none, the earlier name otherwise. -/
theorem Init_formatter (env : Env) (config : GoString) (el : esLogger) (f0 : LogFormatter)
    (x : Exported) (u : URL) (conn : Client)
    (hu : env.jsonUnmarshal config el.exported = (none, x)) (hne : x.DSN ≠ [])
    (hp : env.urlParse x.DSN = .ok u) (hpath : u.Path ≠ [])
    (hc : env.newClient [x.DSN] = .ok conn) :
    (x.Formatter ≠ [] → env.getFormatter x.Formatter = none →
      (Init env config (SetFormatter el f0)).exit = .formatterNotFound x.Formatter ∧
      (Init env config (SetFormatter el f0)).exit.err =
        some (.errorString
          (utf8 "the formatter with name: " ++ x.Formatter ++ utf8 " not found"))) ∧
    (x.Formatter ≠ [] → ∀ fmtr, env.getFormatter x.Formatter = some fmtr →
      (Init env config (SetFormatter el f0)).exit = .success ∧
      (Init env config (SetFormatter el f0)).exit.err = none ∧
      (Init env config (SetFormatter el f0)).el.formatter = fmtr) ∧
    (x.Formatter = [] →
      (Init env config (SetFormatter el f0)).exit = .success ∧
      (Init env config (SetFormatter el f0)).el.formatter = f0 ∧
      (Init env config (SetFormatter el f0)).trace =
        [.unmarshal config, .urlParse x.DSN, .newClient [x.DSN]]) ∧
    (∀ p : Promoted, env.jsonUnmarshal = jsonUnmarshalEsLogger p →
      namesFormatter config = false → x.Formatter = el.Formatter) := by
  have he : (SetFormatter el f0).exported = el.exported := rfl
  refine ⟨?_, ?_, ?_, fun p hp => (unmarshal_leaves env config el x none hu p hp).2⟩
  · intro hf hg
    have hl : x.Formatter.length > 0 := List.length_pos.mpr hf
    simp [Init, he, hu, esLogger.withExported, hne, hp, hpath, hc, hl, hg, InitExit.err]
  · intro hf fmtr hg
    have hl : x.Formatter.length > 0 := List.length_pos.mpr hf
    simp [Init, he, hu, esLogger.withExported, hne, hp, hpath, hc, hl, hg, InitExit.err]
  · intro hf
    simp only [Init, he, hu]
    simp [esLogger.withExported, hne, hp, hpath, hc, hf, SetFormatter]

/-- C9 amended, on a fresh adapter: the unregistered name `json`, the
registered name `plain`, and a blob without the key `formatter`. -/
theorem Init_formatter_witness :
    (Init (goEnv sampleHost)
        (utf8 "\x7b\"dsn\":\"http://localhost:9200/logs\",\"formatter\":\"json\"\x7d")
        (SetFormatter (NewES (goEnv sampleHost)) none)).exit = .formatterNotFound (utf8 "json") ∧
    (Init (goEnv sampleHost)
        (utf8 "\x7b\"dsn\":\"http://localhost:9200/logs\",\"formatter\":\"plain\"\x7d")
        (SetFormatter (NewES (goEnv sampleHost)) none)).el.formatter = some plainFormatter ∧
    (Init (goEnv sampleHost) (utf8 "\x7b\"dsn\":\"http://localhost:9200/logs\"\x7d")
        (SetFormatter (NewES (goEnv sampleHost)) (some plainFormatter))).el.formatter
      = some plainFormatter :=
  ⟨((Init_formatter (goEnv sampleHost)
        (utf8 "\x7b\"dsn\":\"http://localhost:9200/logs\",\"formatter\":\"json\"\x7d")
        (NewES (goEnv sampleHost)) none
        ⟨none, utf8 "http://localhost:9200/logs", 7, utf8 "json"⟩
        ⟨utf8 "http", [], utf8 "localhost:9200", utf8 "/logs", [], []⟩ ⟨1⟩
        (by decide) (by decide) rfl (by decide) rfl).1 (by decide) rfl).1,
   ((Init_formatter (goEnv sampleHost)
        (utf8 "\x7b\"dsn\":\"http://localhost:9200/logs\",\"formatter\":\"plain\"\x7d")
        (NewES (goEnv sampleHost)) none
        ⟨none, utf8 "http://localhost:9200/logs", 7, utf8 "plain"⟩
        ⟨utf8 "http", [], utf8 "localhost:9200", utf8 "/logs", [], []⟩ ⟨1⟩
        (by decide) (by decide) rfl (by decide) rfl).2.1 (by decide) _ rfl).2.2,
   ((Init_formatter (goEnv sampleHost) (utf8 "\x7b\"dsn\":\"http://localhost:9200/logs\"\x7d")
        (NewES (goEnv sampleHost)) (some plainFormatter)
        ⟨none, utf8 "http://localhost:9200/logs", 7, []⟩
        ⟨utf8 "http", [], utf8 "localhost:9200", utf8 "/logs", [], []⟩ ⟨1⟩
        (by decide) (by decide) rfl (by decide) rfl).2.2.1 rfl).2.1⟩

/-- C10: when `Init` returns nil, the adapter's client is the one client
construction returned for the address list holding `DSN` alone, `DSN` is not
empty, it parses, and its parsed path is not empty; `Flush` and `Destroy`
return the adapter as it is. -/
theorem Init_success_invariant (env : Env) (config : GoString) (el : esLogger)
    (h : (Init env config el).exit.err = none) :
    (∃ conn u, env.newClient [(Init env config el).el.DSN] = .ok conn ∧
      (Init env config el).el.Client = some conn ∧
      env.urlParse (Init env config el).el.DSN = .ok u ∧ u.Path ≠ []) ∧
    (Init env config el).el.DSN ≠ [] ∧
    Flush (Init env config el).el = (Init env config el).el ∧
    Destroy (Init env config el).el = (Init env config el).el ∧
    Destroy (Flush (Init env config el).el) = (Init env config el).el := by
  refine ⟨?_, ?_, rfl, rfl, rfl⟩
  all_goals
    revert h
    unfold Init
    rcases hu : env.jsonUnmarshal config el.exported with ⟨_ | e, x⟩
    · simp only
      by_cases hd : (el.withExported x).DSN = []
      · simp [hd, InitExit.err]
      · rcases hp : env.urlParse (el.withExported x).DSN with e | u
        · simp [hd, hp, InitExit.err]
        · by_cases hpath : u.Path = []
          · simp [hd, hp, hpath, InitExit.err]
          · rcases hc : env.newClient [(el.withExported x).DSN] with e | conn
            · simp [hd, hp, hpath, hc, InitExit.err]
            · by_cases hl : (el.withExported x).Formatter.length > 0
              · rcases hg : env.getFormatter (el.withExported x).Formatter with _ | fmtr
                · simp [hd, hp, hpath, hc, hl, hg, InitExit.err]
                · simp [hd, hp, hpath, hc, hl, hg, InitExit.err]
                  try simpa [esLogger.withExported] using hd
              · simp [hd, hp, hpath, hc, hl, InitExit.err]
                try simpa [esLogger.withExported] using hd
    · simp [InitExit.err]

/-- C10 on a fresh adapter and the blob of the documented scenario. -/
theorem Init_success_invariant_witness :
    (Init (goEnv sampleHost) (utf8 "\x7b\"dsn\":\"http://localhost:9200/logs\",\"level\":3\x7d")
        (NewES (goEnv sampleHost))).exit.err = none ∧
    (Init (goEnv sampleHost) (utf8 "\x7b\"dsn\":\"http://localhost:9200/logs\",\"level\":3\x7d")
        (NewES (goEnv sampleHost))).el.DSN ≠ [] :=
  ⟨by decide,
   (Init_success_invariant (goEnv sampleHost)
      (utf8 "\x7b\"dsn\":\"http://localhost:9200/logs\",\"level\":3\x7d")
      (NewES (goEnv sampleHost)) (by decide)).2.1⟩

/-- C3 (the code departs from the claim): on a fresh adapter the blob
`{"dsn":"http://localhost:9200/logs","level":3}` makes `Init` succeed and leaves
`formatter` nil, so `WriteMsg` of a record at level 2 panics at
`el.formatter.Format(lm)` before any index request; the document the claim
names is what the adapter's own `Format` gives, which nothing installs. -/
theorem WriteMsg_fresh_adapter_panics :
    (Init (goEnv sampleHost) (utf8 "\x7b\"dsn\":\"http://localhost:9200/logs\",\"level\":3\x7d")
        (NewES (goEnv sampleHost))).exit = .success ∧
    (Init (goEnv sampleHost) (utf8 "\x7b\"dsn\":\"http://localhost:9200/logs\",\"level\":3\x7d")
        (NewES (goEnv sampleHost))).el.formatter.isNone = true ∧
    (WriteMsg (goEnv sampleHost)
        (Init (goEnv sampleHost)
          (utf8 "\x7b\"dsn\":\"http://localhost:9200/logs\",\"level\":3\x7d")
          (NewES (goEnv sampleHost))).el
        ⟨2, utf8 "boot complete", ⟨2020, 1, 2, 3, 4, 5, 6000000, 0⟩⟩).result = .panicked ∧
    (WriteMsg (goEnv sampleHost)
        (Init (goEnv sampleHost)
          (utf8 "\x7b\"dsn\":\"http://localhost:9200/logs\",\"level\":3\x7d")
          (NewES (goEnv sampleHost))).el
        ⟨2, utf8 "boot complete", ⟨2020, 1, 2, 3, 4, 5, 6000000, 0⟩⟩).trace = [] ∧
    Format (goEnv sampleHost) (NewES (goEnv sampleHost))
        ⟨2, utf8 "boot complete", ⟨2020, 1, 2, 3, 4, 5, 6000000, 0⟩⟩ =
      utf8 "\x7b\"timestamp\":\"2020-01-02T03:04:05Z\",\"msg\":\"boot complete\"\x7d" := by
  refine ⟨by decide, by decide, by decide, by decide, by decide⟩

/-- C6, as stated, fails: the connection string `not a url` has no scheme,
yet on a fresh adapter `Init` ends in no validation error under any host, and
under the sample host it succeeds and stores a client. -/
theorem Init_no_scheme_counterexample :
    hasScheme (utf8 "not a url") = false ∧
    (∀ h : Host,
      (Init (goEnv h) (utf8 "\x7b\"dsn\":\"not a url\"\x7d") (NewES (goEnv h))).exit.isValidation
        = false) ∧
    (Init (goEnv sampleHost) (utf8 "\x7b\"dsn\":\"not a url\"\x7d")
        (NewES (goEnv sampleHost))).exit = .success ∧
    (Init (goEnv sampleHost) (utf8 "\x7b\"dsn\":\"not a url\"\x7d")
        (NewES (goEnv sampleHost))).el.Client = some ⟨1⟩ := by
  refine ⟨by decide, ?_, by decide, by decide⟩
  intro h
  have hu : (goEnv h).jsonUnmarshal (utf8 "\x7b\"dsn\":\"not a url\"\x7d")
      (NewES (goEnv h)).exported = (none, ⟨none, utf8 "not a url", h.LevelDebug, []⟩) := rfl
  have hp : (goEnv h).urlParse (utf8 "not a url") =
      .ok ⟨[], [], [], utf8 "not a url", [], []⟩ := rfl
  have key := Init_isValidation_iff (goEnv h) _ _ _ hu
  rw [Bool.eq_false_iff]
  intro hv
  have hne : utf8 "not a url" ≠ [] := by decide
  rcases key.mp hv with h1 | ⟨e, h2⟩ | ⟨u, h3, h4⟩
  · exact hne h1
  · rw [hp] at h2; cases h2
  · rw [hp] at h3
    cases h3
    exact absurd h4 (by decide)

/-- C6, amended: for a blob that decodes without error to a connection string
in which `url.Parse` finds no scheme, `Init` ends in a validation error exactly
when the string is empty, does not parse, or parses with an empty path; it has
then made no call to client construction and leaves the adapter as the decoder
left it.  Otherwise validation passes on a URL without a scheme and with a
path, and `Init` calls client construction. -/
theorem Init_no_scheme (env : Env) (config : GoString) (el : esLogger) (x : Exported)
    (hu : env.jsonUnmarshal config el.exported = (none, x))
    (hs : ∀ u, env.urlParse x.DSN = .ok u → u.Scheme = []) :
    ((Init env config el).exit.isValidation = true ↔
      (x.DSN = [] ∨ (∃ e, env.urlParse x.DSN = .error e) ∨
        (∃ u, env.urlParse x.DSN = .ok u ∧ u.Path = []))) ∧
    ((Init env config el).exit.isValidation = true →
      (Init env config el).el = el.withExported x ∧
      ∀ addrs, Event.newClient addrs ∉ (Init env config el).trace) ∧
    ((Init env config el).exit.isValidation = false →
      (∃ u, env.urlParse x.DSN = .ok u ∧ u.Scheme = [] ∧ u.Path ≠ []) ∧
      Event.newClient [x.DSN] ∈ (Init env config el).trace) := by
  refine ⟨Init_isValidation_iff env config el x hu,
    (Init_validation_trace env config el x hu).1, fun hv => ⟨?_, ?_⟩⟩
  · obtain ⟨_, u, hp, hpath⟩ := Init_validation_passed env config el x hu hv
    exact ⟨u, hp, hs u hp, hpath⟩
  · exact (Init_validation_trace env config el x hu).2 hv

/-- C6 amended, at `not a url`: validation passes and client construction is
called. -/
theorem Init_no_scheme_witness :
    Event.newClient [utf8 "not a url"] ∈
      (Init (goEnv sampleHost) (utf8 "\x7b\"dsn\":\"not a url\"\x7d")
        (NewES (goEnv sampleHost))).trace :=
  ((Init_no_scheme (goEnv sampleHost) (utf8 "\x7b\"dsn\":\"not a url\"\x7d")
      (NewES (goEnv sampleHost)) ⟨none, utf8 "not a url", 7, []⟩ (by decide)
      (fun u hp => by
        have h0 : (goEnv sampleHost).urlParse (utf8 "not a url") =
            .ok ⟨[], [], [], utf8 "not a url", [], []⟩ := rfl
        rw [h0] at hp
        cases hp
        rfl)).2.2 (by decide)).2

/-- C8 (the code departs from the claim): `WriteMsg` never reads the adapter's
`indexNaming` field, so replacing it changes nothing; with the date policy in
the package variable and a policy naming every index `custom` in the field,
the request goes to index `2020.01.02`. -/
theorem WriteMsg_ignores_indexNaming_field :
    (∀ (env : Env) (el : esLogger) (p : IndexNaming) (lm : LogMsg),
      WriteMsg env { el with indexNaming := p } lm = WriteMsg env el lm) ∧
    (WriteMsg (goEnv sampleHost)
        ⟨some ⟨1⟩, utf8 "http://localhost:9200/logs", 3, some plainFormatter, [],
          some ⟨fun _ => utf8 "custom"⟩⟩
        ⟨2, utf8 "boot complete", ⟨2020, 1, 2, 3, 4, 5, 6000000, 0⟩⟩).trace =
      [.format ⟨2, utf8 "boot complete", ⟨2020, 1, 2, 3, 4, 5, 6000000, 0⟩⟩,
       .indexName ⟨2, utf8 "boot complete", ⟨2020, 1, 2, 3, 4, 5, 6000000, 0⟩⟩,
       .indexRequest ⟨utf8 "2020.01.02", utf8 "logs", utf8 "boot complete"⟩ (some ⟨1⟩)] ∧
    utf8 "2020.01.02" ≠ utf8 "custom" := by
  refine ⟨fun env el p lm => rfl, by decide, by decide⟩

/-- C7, as stated, fails: a rendered message holding the byte `0xFF`, which is
not well-formed UTF-8, comes back from the document as U+FFFD. -/
theorem Format_roundtrip_counterexample :
    sampleHost.oldStyleFormat ⟨2, [0xFF], ⟨2020, 1, 2, 3, 4, 5, 6000000, 0⟩⟩ = [0xFF] ∧
    jsonUnmarshalLogDocument
        (Format (goEnv sampleHost) (NewES (goEnv sampleHost))
          ⟨2, [0xFF], ⟨2020, 1, 2, 3, 4, 5, 6000000, 0⟩⟩) ⟨[], []⟩ =
      (none, ⟨utf8 "2020-01-02T03:04:05Z", [0xEF, 0xBF, 0xBD]⟩) := by
  refine ⟨rfl, by decide⟩

/-- C7, amended: for a record whose old-style rendered message is well-formed
UTF-8, what `Format` returns parses as a JSON object and decodes, without
error, to the `LogDocument` holding the record's time in RFC 3339 and the
rendered message; `Format` returns the same for every adapter, so whatever
formatter is configured; and whenever `json.Marshal` succeeds `Format` returns
the encoding, the plain message being left to the failure branch. -/
theorem Format_roundtrip (h : Host) (el : esLogger) (lm : LogMsg) (d0 : LogDocument)
    (hv : ValidString (h.oldStyleFormat lm) = true) :
    jsonUnmarshalLogDocument (Format (goEnv h) el lm) d0 =
      (none, ⟨timeFormatRFC3339 lm.When, h.oldStyleFormat lm⟩) ∧
    parseJSON (Format (goEnv h) el lm) =
      some (.object [(utf8 "timestamp", .string (timeFormatRFC3339 lm.When)),
        (utf8 "msg", .string (h.oldStyleFormat lm))]) ∧
    (∀ el2 : esLogger, Format (goEnv h) el2 lm = Format (goEnv h) el lm) ∧
    (∀ (env : Env) (body : GoString),
      env.jsonMarshal ⟨env.timeFormatRFC3339 lm.When, env.oldStyleFormat lm⟩ = .ok body →
      Format env el lm = body) := by
  have hF : Format (goEnv h) el lm =
      marshalLogDocument ⟨timeFormatRFC3339 lm.When, h.oldStyleFormat lm⟩ := rfl
  refine ⟨?_, ?_, fun _ => rfl, ?_⟩
  · rw [hF]
    exact jsonUnmarshalLogDocument_marshal _ d0 (timeFormatRFC3339_valid lm.When) hv
  · rw [hF]
    exact parseJSON_marshalLogDocument _ (timeFormatRFC3339_valid lm.When) hv
  · intro env body hb
    simp [Format, hb]

/-- C7 amended, at the record of the documented scenario. -/
theorem Format_roundtrip_witness :
    jsonUnmarshalLogDocument
        (Format (goEnv sampleHost) (NewES (goEnv sampleHost))
          ⟨2, utf8 "boot complete", ⟨2020, 1, 2, 3, 4, 5, 6000000, 0⟩⟩) ⟨[], []⟩ =
      (none, ⟨utf8 "2020-01-02T03:04:05Z", utf8 "boot complete"⟩) :=
  (Format_roundtrip sampleHost (NewES (goEnv sampleHost))
    ⟨2, utf8 "boot complete", ⟨2020, 1, 2, 3, 4, 5, 6000000, 0⟩⟩ ⟨[], []⟩ (by decide)).1

end es
